import Mathlib

/-!
AIChatApp: request/response orchestration of `src/script.js`.

A shallow embedding of the dispatch core of the `AIChatApp` class:
`callAPI`, `callHuggingFaceAPI`, `sendMessage`, `clearChat`, `saveSettings`,
`formatMessage` and the DOM helpers they use.  The network is an explicit parameter (a function from
the request handed to `fetch` to what `fetch` and `response.json()` give
back), `Date.now()` readings are explicit parameters, and a promise that
rejects is an `Except.error`.  `sendMessage` suspends at its `await`:
`sendMessageStart` is the part that runs before it and `sendMessageFinish`
the part that runs when the response has arrived, on whatever state the
other handlers have left by then; `sendMessage` is the two parts run back
to back, with nothing in between.
-/

namespace AIChatApp

/-! ## JavaScript values -/

/-- The values `response.json()` can resolve to, plus `undefined`.
Numbers are represented by their integer value. -/
inductive JSVal where
  | undefined : JSVal
  | null : JSVal
  | bool (b : Bool) : JSVal
  | num (n : Int) : JSVal
  | str (s : String) : JSVal
  | arr (items : List JSVal) : JSVal
  | obj (fields : List (String × JSVal)) : JSVal
  deriving Inhabited

/-- A thrown JavaScript error: its constructor name and its `message`. -/
structure JSError where
  name : String
  message : String
  deriving DecidableEq, Repr, Inhabited

/-- ToBoolean: `undefined`, `null`, `false`, `0` and `""` are falsy. -/
def JSVal.truthy : JSVal → Bool
  | .undefined => false
  | .null => false
  | .bool b => b
  | .num n => n != 0
  | .str s => s != ""
  | .arr _ => true
  | .obj _ => true

/-- Own-property read `v[key]` on a value that is neither `null` nor
`undefined`.  The keys the program reads (`choices`, `message`, `content`,
`error`, `generated_text`) are not properties of any built-in prototype,
so the own properties decide the result. -/
def JSVal.field (v : JSVal) (key : String) : JSVal :=
  match v with
  | .obj fields => (fields.lookup key).getD .undefined
  | _ => .undefined

/-- Index read `v[0]` on a value that is neither `null` nor `undefined`:
the first element of an array, the property `"0"` of an object, the first
character of a non-empty string. -/
def JSVal.first (v : JSVal) : JSVal :=
  match v with
  | .arr items => items.headD .undefined
  | .obj fields => (fields.lookup "0").getD .undefined
  | .str s => if s = "" then .undefined else .str (s.take 1)
  | _ => .undefined

/-- The TypeError raised by a property read on `null` or `undefined`. -/
def readError (base key : String) : JSError :=
  ⟨"TypeError", "Cannot read properties of " ++ base ++ " (reading '" ++ key ++ "')"⟩

/-- Plain member access `v.key`: throws on `null` and `undefined`. -/
def JSVal.get (v : JSVal) (key : String) : Except JSError JSVal :=
  match v with
  | .undefined => .error (readError "undefined" key)
  | .null => .error (readError "null" key)
  | _ => .ok (v.field key)

/-- Plain index access `v[0]`: throws on `null` and `undefined`. -/
def JSVal.at0 (v : JSVal) : Except JSError JSVal :=
  match v with
  | .undefined => .error (readError "undefined" "0")
  | .null => .error (readError "null" "0")
  | _ => .ok v.first

/-- Optional chaining `v?.key`: `undefined` on `null` and `undefined`. -/
def JSVal.optGet (v : JSVal) (key : String) : JSVal :=
  match v with
  | .undefined => .undefined
  | .null => .undefined
  | _ => v.field key

/-- The operator `a || b`. -/
def JSVal.orElse (a b : JSVal) : JSVal :=
  if a.truthy then a else b

mutual
/-- ToString, as applied by `new Error(v)` to its argument. -/
def JSVal.toStr : JSVal → String
  | .undefined => "undefined"
  | .null => "null"
  | .bool b => if b then "true" else "false"
  | .num n => if n < 0 then "-" ++ Nat.repr n.natAbs else Nat.repr n.natAbs
  | .str s => s
  | .arr items => JSVal.joinComma items
  | .obj _ => "[object Object]"
/-- Array ToString: the elements joined by commas, `null` and `undefined`
printed as the empty string. -/
def JSVal.joinComma : List JSVal → String
  | [] => ""
  | [x] => JSVal.elemStr x
  | x :: y :: rest => JSVal.elemStr x ++ "," ++ JSVal.joinComma (y :: rest)
/-- One array element inside Array ToString. -/
def JSVal.elemStr : JSVal → String
  | .undefined => ""
  | .null => ""
  | .bool b => if b then "true" else "false"
  | .num n => if n < 0 then "-" ++ Nat.repr n.natAbs else Nat.repr n.natAbs
  | .str s => s
  | .arr items => JSVal.joinComma items
  | .obj _ => "[object Object]"
end

/-! ## Data model -/

/-- One transcript entry, `{ role, content }`. -/
structure Message where
  role : String
  content : String
  deriving DecidableEq, Repr, Inhabited

/-- The field `this.config`. -/
structure Config where
  apiKey : String
  apiProvider : String
  model : String
  systemPrompt : String
  deriving DecidableEq, Repr, Inhabited

/-- A decimal literal `digits / 10 ^ scale`; `0.7` is `⟨7, 1⟩`. -/
structure Decimal where
  digits : Nat
  scale : Nat
  deriving DecidableEq, Repr, Inhabited

/-- The object handed to `JSON.stringify` as the request body:
`chat` is `{ model, messages, temperature, max_tokens }` and `prompt` is
`{ inputs, parameters: { max_new_tokens, temperature } }`. -/
inductive RequestBody where
  | chat (model : String) (messages : List Message) (temperature : Decimal)
      (max_tokens : Nat) : RequestBody
  | prompt (inputs : String) (max_new_tokens : Nat) (temperature : Decimal) : RequestBody
  deriving DecidableEq, Repr, Inhabited

/-- What `this.apiEndpoints[provider]` evaluates to when it is not
`undefined`: one of the three URLs of the object literal, or a member
inherited from `Object.prototype`. -/
inductive Endpoint where
  | url (address : String) : Endpoint
  | inherited (key : String) : Endpoint
  deriving DecidableEq, Repr, Inhabited

/-- One invocation of `fetch(resource, { method, headers, body })`. -/
structure Request where
  resource : Endpoint
  method : String
  headers : List (String × String)
  body : RequestBody
  deriving DecidableEq, Repr, Inhabited

/-- What the network gives back for one `fetch`: the promise rejects, or it
resolves to a response with a status whose `json()` either rejects with the
message of the parser or resolves to a value. -/
inductive NetResult where
  | failed (e : JSError) : NetResult
  | response (status : Nat) (json : Except String JSVal) : NetResult

/-- The getter `response.ok`: the status is in the range 200-299. -/
def statusOk (status : Nat) : Bool :=
  decide (200 ≤ status) && decide (status ≤ 299)

/-- The environment of one dispatch: the network, `window.location.href`
and the readings of `Date.now()` in the three DOM insertions of
`sendMessage`. -/
structure Env where
  net : Request → NetResult
  href : String
  tUser : Nat
  tLoading : Nat
  tReply : Nat

/-- The result of a dispatch together with the `fetch` invocations made. -/
structure Outcome where
  result : Except JSError JSVal
  calls : List Request

/-! ## Provider table -/

/-- The own properties of `this.apiEndpoints`. -/
def apiEndpoints : List (String × String) :=
  [("groq", "https://api.groq.com/openai/v1/chat/completions"),
   ("openrouter", "https://openrouter.ai/api/v1/chat/completions"),
   ("huggingface",
    "https://api-inference.huggingface.co/models/meta-llama/Llama-2-7b-chat-hf")]

/-- The property names every object literal inherits from
`Object.prototype`; each of them reads as a function or an object, hence
as a truthy value. -/
def objectPrototypeKeys : List String :=
  ["constructor", "__proto__", "hasOwnProperty", "isPrototypeOf",
   "propertyIsEnumerable", "toLocaleString", "toString", "valueOf",
   "__defineGetter__", "__defineSetter__", "__lookupGetter__", "__lookupSetter__"]

/-- The read `this.apiEndpoints[provider]`; `none` is `undefined`. -/
def lookupEndpoint (provider : String) : Option Endpoint :=
  match apiEndpoints.lookup provider with
  | some address => some (.url address)
  | none => if provider ∈ objectPrototypeKeys then some (.inherited provider) else none

/-! ## Dispatch -/

/-- The array `[{ role: 'system', content: systemPrompt }, ...chatHistory]`. -/
def buildMessages (config : Config) (chatHistory : List Message) : List Message :=
  ⟨"system", config.systemPrompt⟩ :: chatHistory

/-- Array.prototype.join on strings: the separator goes in front of every
element but the first. -/
def jsJoin (sep : String) (parts : List String) : String :=
  (parts.foldl (fun (acc : String × Bool) part =>
    (if acc.2 then acc.1 ++ part else acc.1 ++ sep ++ part, false)) ("", true)).1

/-- The prompt of `callHuggingFaceAPI`:
`messages.map(m => m.role + ": " + m.content).join('\n')`. -/
def buildPrompt (messages : List Message) : String :=
  jsJoin "\n" (messages.map (fun m => m.role ++ ": " ++ m.content))

/-- The request `callHuggingFaceAPI` hands to `fetch`. -/
def huggingFaceRequest (config : Config) (messages : List Message) : Request :=
  { resource := .url ((apiEndpoints.lookup "huggingface").getD "")
    method := "POST"
    headers := [("Authorization", "Bearer " ++ config.apiKey),
                ("Content-Type", "application/json")]
    body := .prompt (buildPrompt messages) 512 ⟨7, 1⟩ }

/-- The expression `data[0]?.generated_text || 'No response'`. -/
def extractGenerated (data : JSVal) : Except JSError JSVal :=
  match data.at0 with
  | .error e => .error e
  | .ok item => .ok ((item.optGet "generated_text").orElse (.str "No response"))

/-- The part of `callHuggingFaceAPI` that follows `await fetch(...)`. -/
def huggingFaceReply (settled : NetResult) : Except JSError JSVal :=
  match settled with
  | .failed e => .error e
  | .response status json =>
    if !statusOk status then
      .error ⟨"Error", "Hugging Face API error: " ++ Nat.repr status⟩
    else
      match json with
      | .error msg => .error ⟨"SyntaxError", msg⟩
      | .ok data => extractGenerated data

/-- The method `callHuggingFaceAPI(messages)`. -/
def callHuggingFaceAPI (env : Env) (config : Config) (messages : List Message) : Outcome :=
  let request := huggingFaceRequest config messages
  ⟨huggingFaceReply (env.net request), [request]⟩

/-- The request `callAPI` hands to `fetch` on the OpenAI-compatible path. -/
def chatRequest (env : Env) (config : Config) (endpoint : Endpoint)
    (messages : List Message) : Request :=
  { resource := endpoint
    method := "POST"
    headers := [("Authorization", "Bearer " ++ config.apiKey),
                ("Content-Type", "application/json")] ++
               (if config.apiProvider = "openrouter" then
                  [("HTTP-Referer", env.href), ("X-Title", "AI Chat Educational Demo")]
                else [])
    body := .chat config.model messages ⟨7, 1⟩ 1024 }

/-- The thrown value of the `!response.ok` branch of `callAPI`:
`new Error(errorData.error?.message || "API request failed: " + status)`
with `errorData = await response.json().catch(() => ({}))`. -/
def errorFromResponse (status : Nat) (json : Except String JSVal) : JSError :=
  let errorData : JSVal := match json with
    | .error _ => .obj []
    | .ok v => v
  match errorData.get "error" with
  | .error e => e
  | .ok err =>
    ⟨"Error", ((err.optGet "message").orElse
      (.str ("API request failed: " ++ Nat.repr status))).toStr⟩

/-- The expression `data.choices[0]?.message?.content`. -/
def extractContent (data : JSVal) : Except JSError JSVal :=
  match data.get "choices" with
  | .error e => .error e
  | .ok choices =>
    match choices.at0 with
    | .error e => .error e
    | .ok choice => .ok ((choice.optGet "message").optGet "content")

/-- The part of `callAPI` that follows `await fetch(...)`. -/
def chatReply (settled : NetResult) : Except JSError JSVal :=
  match settled with
  | .failed e => .error e
  | .response status json =>
    if !statusOk status then
      .error (errorFromResponse status json)
    else
      match json with
      | .error msg => .error ⟨"SyntaxError", msg⟩
      | .ok data =>
        match extractContent data with
        | .error e => .error e
        | .ok messageContent =>
          if !messageContent.truthy then
            .error ⟨"Error", "No response from API"⟩
          else
            .ok messageContent

/-- The method `callAPI()`. -/
def callAPI (env : Env) (config : Config) (chatHistory : List Message) : Outcome :=
  match lookupEndpoint config.apiProvider with
  | none => ⟨.error ⟨"Error", "Invalid API provider selected"⟩, []⟩
  | some endpoint =>
    let messages := buildMessages config chatHistory
    if config.apiProvider = "huggingface" then
      callHuggingFaceAPI env config messages
    else
      let request := chatRequest env config endpoint messages
      ⟨chatReply (env.net request), [request]⟩

/-! ## Application state and the chat loop -/

/-- One child of `messagesContainer`: a message bubble showing
`formatMessage(content)`, or (with `content = none`) the loading dots. -/
structure Bubble where
  id : String
  className : String
  content : Option String
  deriving DecidableEq, Repr, Inhabited

/-- The state of the application that `sendMessage` and `clearChat` read
and write. `welcomeDisplay` is the `style.display` of the welcome element,
`none` when the page has no such element. -/
structure App where
  config : Config
  chatHistory : List Message
  bubbles : List Bubble
  inputValue : String
  sendDisabled : Bool
  settingsActive : Bool
  welcomeDisplay : Option String
  notifications : List (String × String)
  deriving DecidableEq, Repr, Inhabited

/-- WhiteSpace and LineTerminator code points, the ones `trim()` strips. -/
def isJSWhitespace (c : Char) : Bool :=
  c.toNat ∈ [0x09, 0x0A, 0x0B, 0x0C, 0x0D, 0x20, 0xA0, 0x1680, 0x2028, 0x2029,
             0x202F, 0x205F, 0x3000, 0xFEFF] ||
  (decide (0x2000 ≤ c.toNat) && decide (c.toNat ≤ 0x200A))

/-- String.prototype.trim. -/
def jsTrim (s : String) : String :=
  String.mk ((s.data.dropWhile isJSWhitespace).reverse.dropWhile isJSWhitespace).reverse

/-- The method `addMessage(role, content)` on a string `content`, with
`t` the reading of `Date.now()`. -/
def addMessage (t : Nat) (role content : String) (app : App) : App :=
  { app with bubbles := app.bubbles ++ [⟨"msg-" ++ Nat.repr t, "message " ++ role, some content⟩] }

/-- The method `addLoadingMessage()`: the new id and the new state. -/
def addLoadingMessage (t : Nat) (app : App) : String × App :=
  ("loading-" ++ Nat.repr t,
   { app with bubbles := app.bubbles ++ [⟨"loading-" ++ Nat.repr t, "message assistant", none⟩] })

/-- Removal of the first element carrying the id, what
`document.getElementById(id)` finds. -/
def removeFirst (id : String) : List Bubble → List Bubble
  | [] => []
  | b :: rest => if b.id = id then rest else b :: removeFirst id rest

/-- The method `removeMessage(id)`. -/
def removeMessage (id : String) (app : App) : App :=
  { app with bubbles := removeFirst id app.bubbles }

/-- The method `toggleSettings()`. -/
def toggleSettings (app : App) : App :=
  { app with settingsActive := !app.settingsActive }

/-- The method `showNotification(message, type)`. -/
def showNotification (message type : String) (app : App) : App :=
  { app with notifications := app.notifications ++ [(message, type)] }

/-- The `try`/`catch` of `sendMessage` after `callAPI` has settled.  A
reply that is not a string makes `formatMessage` throw inside
`addMessage`, after the first `removeMessage`, and control passes to the
`catch` block. -/
def settle (env : Env) (loadingId : String) (result : Except JSError JSVal) (app : App) : App :=
  match result with
  | .ok (.str response) =>
    let shown := addMessage env.tReply "assistant" response (removeMessage loadingId app)
    { shown with chatHistory := shown.chatHistory ++ [⟨"assistant", response⟩] }
  | .ok _ =>
    addMessage env.tReply "assistant" ("Error: " ++ "content.replace is not a function")
      (removeMessage loadingId (removeMessage loadingId app))
  | .error e =>
    addMessage env.tReply "assistant" ("Error: " ++ e.message) (removeMessage loadingId app)

/-- What a suspended `sendMessage` holds while it waits at
`await this.callAPI()`: the id of its loading placeholder and the outcome
the `await` will deliver. -/
structure Pending where
  loadingId : String
  outcome : Outcome

/-- The part of `sendMessage()` that runs before its `await`: the
validation, the user bubble, the push of the user entry, the loading
placeholder and the synchronous part of `callAPI` (the request is built and
handed to `fetch`).  The result is the state the other handlers see while
the call is pending, and the pending call, `none` when the method returned
early. -/
def sendMessageStart (env : Env) (app : App) : App × Option Pending :=
  let message := jsTrim app.inputValue
  if message = "" then (app, none)
  else if app.config.apiKey = "" then
    (toggleSettings (showNotification "Please configure your API key in settings" "error" app),
     none)
  else
    let cleared : App :=
      { app with welcomeDisplay := app.welcomeDisplay.map (fun _ => "none")
                 inputValue := ""
                 sendDisabled := true }
    let shown := addMessage env.tUser "user" message cleared
    let pushed : App := { shown with chatHistory := shown.chatHistory ++ [⟨"user", message⟩] }
    let loading := addLoadingMessage env.tLoading pushed
    (loading.2, some ⟨loading.1, callAPI env loading.2.config loading.2.chatHistory⟩)

/-- The part of `sendMessage()` that runs after its `await`, on the state
`app` the application is in when the response arrives: the `try`/`catch`
continuation and the re-enabling of the send button. -/
def sendMessageFinish (env : Env) (pending : Pending) (app : App) : App :=
  { settle env pending.loadingId pending.outcome.result app with sendDisabled := false }

/-- The method `sendMessage()` run without interruption, no other handler
running while the request is pending: the new state and the `fetch`
invocations made. -/
def sendMessage (env : Env) (app : App) : App × List Request :=
  let message := jsTrim app.inputValue
  if message = "" then (app, [])
  else if app.config.apiKey = "" then
    (toggleSettings (showNotification "Please configure your API key in settings" "error" app), [])
  else
    let cleared : App :=
      { app with welcomeDisplay := app.welcomeDisplay.map (fun _ => "none")
                 inputValue := ""
                 sendDisabled := true }
    let shown := addMessage env.tUser "user" message cleared
    let pushed : App := { shown with chatHistory := shown.chatHistory ++ [⟨"user", message⟩] }
    let loading := addLoadingMessage env.tLoading pushed
    let outcome := callAPI env loading.2.config loading.2.chatHistory
    let settled := settle env loading.1 outcome.result loading.2
    ({ settled with sendDisabled := false }, outcome.calls)

/-- The method `clearChat()`, with `confirmed` the answer of `confirm`. -/
def clearChat (confirmed : Bool) (app : App) : App :=
  if 0 < app.chatHistory.length ∧ confirmed = false then app
  else
    showNotification "Chat cleared" "success"
      { app with chatHistory := []
                 bubbles := []
                 welcomeDisplay := app.welcomeDisplay.map (fun _ => "flex") }

/-! ## Rendering a message -/

/-- One `replace(/c/g, entity)` of the escaping step of `formatMessage`. -/
def escapePass (target : Char) (entity : String) (cs : List Char) : List Char :=
  cs.flatMap (fun c => if c = target then entity.data else [c])

/-- The escaping step of `formatMessage`: `&`, then `<`, then `>`. -/
def escapeHtml (cs : List Char) : List Char :=
  escapePass '>' "&gt;" (escapePass '<' "&lt;" (escapePass '&' "&amp;" cs))

/-- The backtick character. -/
def backtick : Char := Char.ofNat 96

/-- The class `\w`: ASCII letters, digits and the underscore. -/
def isWordChar (c : Char) : Bool :=
  c.isAlphanum || c == '_'

/-- Whether the text begins with the pattern. -/
def startsWith : List Char → List Char → Bool
  | [], _ => true
  | _ :: _, [] => false
  | p :: ps, c :: cs => p == c && startsWith ps cs

/-- The lazy group `([\s\S]*?)` followed by three backticks: the shortest
text in front of the first closing fence, `none` when there is no fence. -/
def findFence : List Char → Option (List Char)
  | [] => none
  | c :: cs =>
    if startsWith [backtick, backtick, backtick] (c :: cs) then some []
    else (findFence cs).map (fun code => c :: code)

/-- A match of the code-block pattern (three backticks, an optional run of
`\w`, a newline, the lazy body, three backticks) at the start of the text:
the replacement `<pre><code>` + `code.trim()` + `</code></pre>` and the
length of the match. -/
def matchBlock (cs : List Char) : Option (List Char × Nat) :=
  if startsWith [backtick, backtick, backtick] cs then
    let afterFence := cs.drop 3
    let lang := afterFence.takeWhile isWordChar
    match afterFence.dropWhile isWordChar with
    | [] => none
    | c :: body =>
      if c = '\n' then
        match findFence body with
        | none => none
        | some code =>
          some ("<pre><code>".data ++ (jsTrim (String.mk code)).data ++ "</code></pre>".data,
                3 + lang.length + 1 + code.length + 3)
      else none
  else none

/-- A match of the inline-code pattern (a backtick, one or more characters
other than a backtick, a backtick) at the start of the text: the replacement
`<code>$1</code>` and the length of the match. -/
def matchInline (cs : List Char) : Option (List Char × Nat) :=
  match cs with
  | [] => none
  | c :: rest =>
    if c = backtick then
      let run := rest.takeWhile (fun x => x != backtick)
      match rest.dropWhile (fun x => x != backtick) with
      | [] => none
      | _ :: _ =>
        if run = [] then none
        else some ("<code>".data ++ run ++ "</code>".data, run.length + 2)
    else none

/-- String.prototype.replace with a global pattern that never matches the
empty string: scan from the left, replace the match found at the current
position and resume after it, otherwise keep the character and move on.
`skip` counts the characters of the last match still to be passed over. -/
def replaceAll (matchAt : List Char → Option (List Char × Nat)) : Nat → List Char → List Char
  | _, [] => []
  | skip + 1, _ :: cs => replaceAll matchAt skip cs
  | 0, c :: cs =>
    match matchAt (c :: cs) with
    | some (replacement, len) => replacement ++ replaceAll matchAt (len - 1) cs
    | none => c :: replaceAll matchAt 0 cs

/-- The last step of `formatMessage`: every newline becomes `<br>`. -/
def replaceNewlines (cs : List Char) : List Char :=
  cs.flatMap (fun c => if c = '\n' then "<br>".data else [c])

/-- The method `formatMessage(content)` on a string. -/
def formatMessage (content : String) : String :=
  String.mk (replaceNewlines (replaceAll matchInline 0
    (replaceAll matchBlock 0 (escapeHtml content.data))))

/-- The tags `formatMessage` inserts. -/
def insertedTags : List (List Char) :=
  ["<pre>".data, "</pre>".data, "<code>".data, "</code>".data, "<br>".data]

/-- A text in which every `<` opens and every `>` closes one of the
inserted tags: it is made of characters other than `<` and `>` and of whole
inserted tags. -/
inductive TagSafe : List Char → Prop where
  | nil : TagSafe []
  | char (c : Char) (rest : List Char) : c ≠ '<' → c ≠ '>' → TagSafe rest → TagSafe (c :: rest)
  | tag (t rest : List Char) : t ∈ insertedTags → TagSafe rest → TagSafe (t ++ rest)

/-- The relation between a text and the texts obtained from it by replacing
some of its backticks by `<code>` or `</code>` and keeping every other
character. -/
inductive InlineSubst : List Char → List Char → Prop where
  | nil : InlineSubst [] []
  | keep (c : Char) (xs ys : List Char) : InlineSubst xs ys → InlineSubst (c :: xs) (c :: ys)
  | opened (xs ys : List Char) : InlineSubst xs ys →
      InlineSubst (backtick :: xs) ("<code>".data ++ ys)
  | closed (xs ys : List Char) : InlineSubst xs ys →
      InlineSubst (backtick :: xs) ("</code>".data ++ ys)

/-- The entity that stands for a character after escaping. -/
def escapeChar (c : Char) : List Char :=
  if c = '&' then "&amp;".data
  else if c = '<' then "&lt;".data
  else if c = '>' then "&gt;".data
  else [c]

/-! ## Settings and runs of the application -/

/-- The method `saveSettings()`, with `form` the values of the settings
form; the status indicator it refreshes is not part of the state. -/
def saveSettings (form : Config) (app : App) : App :=
  let saved : App :=
    { app with config := { apiKey := jsTrim form.apiKey
                           apiProvider := form.apiProvider
                           model := form.model
                           systemPrompt := jsTrim form.systemPrompt } }
  showNotification "Settings saved successfully!" "success" (toggleSettings saved)

/-- What can happen to the application between two states: the user edits
the message input, submits it, clears the chat, opens or closes the settings
panel, or saves the settings form. -/
inductive Action where
  | typeText (text : String) : Action
  | send (env : Env) : Action
  | clear (confirmed : Bool) : Action
  | toggle : Action
  | save (form : Config) : Action

/-- The state after one action. -/
def step (app : App) : Action → App
  | .typeText text => { app with inputValue := text }
  | .send env => (sendMessage env app).1
  | .clear confirmed => clearChat confirmed app
  | .toggle => toggleSettings app
  | .save form => saveSettings form app

/-- The state after a sequence of actions, each one run to completion
before the next. -/
def run (app : App) (actions : List Action) : App :=
  actions.foldl step app

/-- The state after this sequence of events: the input is submitted; while
its request is pending the text `text` is typed and submitted (a second
call, with the clock readings of `env2`, which stays pending); then the
response to the first request arrives and the first call completes.
`none` when the first submission returned early. -/
def secondEnterTrace (env env2 : Env) (text : String) (app : App) : Option App :=
  match sendMessageStart env app with
  | (started, some pending) =>
    some (sendMessageFinish env pending
      (sendMessageStart env2 { started with inputValue := text }).1)
  | (_, none) => none

/-- The state after this sequence of events: the input is submitted; while
its request is pending the chat is cleared, the user confirming; then the
response arrives and the call completes.  `none` when the submission
returned early. -/
def clearDuringCallTrace (env : Env) (app : App) : Option App :=
  match sendMessageStart env app with
  | (started, some pending) => some (sendMessageFinish env pending (clearChat true started))
  | (_, none) => none

/-! ## Sample data -/

/-- A network that answers every request with status 200 and the body
`{ choices: [{ message: { content: "ok" } }] }`. -/
def sampleEnv : Env :=
  { net := fun _ => .response 200
      (.ok (.obj [("choices", .arr [.obj [("message", .obj [("content", .str "ok")])]])]))
    href := "http://localhost:8000/index.html"
    tUser := 1700000000000
    tLoading := 1700000000001
    tReply := 1700000000900 }

/-- A groq configuration with the system prompt `"be terse"`. -/
def sampleConfig : Config :=
  { apiKey := "gsk_test"
    apiProvider := "groq"
    model := "llama-3.1-8b-instant"
    systemPrompt := "be terse" }

/-- The same configuration on the huggingface provider. -/
def sampleHuggingFaceConfig : Config :=
  { sampleConfig with apiProvider := "huggingface", model := "google/flan-t5-large" }

/-- The same configuration with the provider identifier `"constructor"`,
a string that is not one of the three providers. -/
def inheritedProviderConfig : Config :=
  { sampleConfig with apiProvider := "constructor" }

/-- A network that answers every request with status 500 and the JSON
body `null`. -/
def nullBodyEnv : Env :=
  { sampleEnv with net := fun _ => NetResult.response 500 (.ok .null) }

/-- A network that answers every request with status 401 and the body
`{ error: { message: "bad key" } }`. -/
def badKeyEnv : Env :=
  { sampleEnv with
    net := fun _ =>
      (NetResult.response 401 (.ok (.obj [("error", .obj [("message", .str "bad key")])]))) }

/-- A network that answers every request with status 500 and a body that
is not JSON. -/
def unparseableEnv : Env :=
  { sampleEnv with net := fun _ => NetResult.response 500 (.error "Unexpected token < in JSON") }

/-- A network that answers every request with status 200 and the body
`[{ generated_text: "hello" }]`. -/
def generatedEnv : Env :=
  { sampleEnv with
    net := fun _ =>
      (NetResult.response 200 (.ok (.arr [.obj [("generated_text", .str "hello")]]))) }

/-- A network that answers every request with status 200 and the body
`{ choices: [] }`. -/
def emptyChoicesEnv : Env :=
  { sampleEnv with net := fun _ => NetResult.response 200 (.ok (.obj [("choices", .arr [])])) }

/-- A configured application with one earlier exchange in the transcript
and the text `"  hi \n"` typed into the input. -/
def sampleApp : App :=
  { config := sampleConfig
    chatHistory := [⟨"user", "ping"⟩, ⟨"assistant", "pong"⟩]
    bubbles := [⟨"msg-1699999999000", "message user", some "ping"⟩,
                ⟨"msg-1699999999500", "message assistant", some "pong"⟩]
    inputValue := "  hi \n"
    sendDisabled := false
    settingsActive := false
    welcomeDisplay := some "none"
    notifications := [] }

/-- The network of `emptyChoicesEnv` with the clock readings of a
submission made 300 ms after the one of `sampleEnv`. -/
def laterEmptyChoicesEnv : Env :=
  { emptyChoicesEnv with tUser := 1700000000300
                         tLoading := 1700000000301
                         tReply := 1700000001200 }

/-- The application right after construction with nothing in local
storage: no API key, the default provider and model, an empty transcript
and an empty message list. -/
def unconfiguredApp : App :=
  { config := { apiKey := ""
                apiProvider := "groq"
                model := "llama-3.1-8b-instant"
                systemPrompt :=
                  "You are a helpful AI assistant. Provide clear, concise, and accurate responses." }
    chatHistory := []
    bubbles := []
    inputValue := ""
    sendDisabled := false
    settingsActive := false
    welcomeDisplay := some "flex"
    notifications := [] }

/-- The application right after construction with the sample configuration
in local storage. -/
def configuredApp : App :=
  { unconfiguredApp with config := sampleConfig }

/-- The openrouter variant of the sample configuration. -/
def sampleOpenRouterConfig : Config :=
  { sampleConfig with apiProvider := "openrouter"
                      model := "google/gemma-2-9b-it:free" }

end AIChatApp

namespace AIChatApp

/-! ## The request that is built -/

theorem callAPI_chat_calls (env : Env) (config : Config) (h : List Message)
    (hp : config.apiProvider = "groq" ∨ config.apiProvider = "openrouter") :
    ∃ endpoint, callAPI env config h =
      ⟨chatReply (env.net (chatRequest env config endpoint (buildMessages config h))),
       [chatRequest env config endpoint (buildMessages config h)]⟩ := by
  rcases hp with hp | hp
  · refine ⟨.url "https://api.groq.com/openai/v1/chat/completions", ?_⟩
    simp [callAPI, hp, lookupEndpoint, apiEndpoints, List.lookup]
  · refine ⟨.url "https://openrouter.ai/api/v1/chat/completions", ?_⟩
    simp [callAPI, hp, lookupEndpoint, apiEndpoints, List.lookup]

theorem callAPI_huggingface (env : Env) (config : Config) (h : List Message)
    (hp : config.apiProvider = "huggingface") :
    callAPI env config h = callHuggingFaceAPI env config (buildMessages config h) := by
  simp [callAPI, hp, lookupEndpoint, apiEndpoints, List.lookup]

theorem jsJoin_fold (sep : String) (parts : List String) (acc : String) :
    (parts.foldl (fun (st : String × Bool) part =>
      (if st.2 then st.1 ++ part else st.1 ++ sep ++ part, false)) (acc, false)).1
      = acc ++ parts.foldr (fun part rest => sep ++ part ++ rest) "" := by
  induction parts generalizing acc with
  | nil => simp
  | cons part rest ih =>
    simp only [List.foldl_cons, List.foldr_cons]
    rw [show ((if (acc, false).2 = true then (acc, false).1 ++ part
               else (acc, false).1 ++ sep ++ part, false) : String × Bool)
          = (acc ++ sep ++ part, false) from by simp]
    rw [ih]
    simp [String.append_assoc]

theorem jsJoin_cons (sep first : String) (rest : List String) :
    jsJoin sep (first :: rest) = first ++ rest.foldr (fun part tail => sep ++ part ++ tail) "" := by
  unfold jsJoin
  simp only [List.foldl_cons]
  have hstart : ((if True then "" ++ first else "" ++ sep ++ first, false) : String × Bool)
      = (first, false) := by simp
  rw [hstart]
  exact jsJoin_fold sep rest first

/-- C1: on a chat-completions provider (groq or openrouter) `callAPI` hands
to `fetch` exactly one request, and its body is
`{ model: config.model, messages: [system message] ++ chatHistory,
temperature: 0.7, max_tokens: 1024 }`: the system message first, the
stored entries after it in their order, unchanged. -/
theorem callAPI_chat_body (env : Env) (config : Config) (h : List Message)
    (hp : config.apiProvider = "groq" ∨ config.apiProvider = "openrouter") :
    (callAPI env config h).calls.map Request.body =
      [RequestBody.chat config.model (⟨"system", config.systemPrompt⟩ :: h) ⟨7, 1⟩ 1024] := by
  obtain ⟨endpoint, hcall⟩ := callAPI_chat_calls env config h hp
  rw [hcall]
  simp [chatRequest, buildMessages]

/-- Witness of C1: transcript `[{user, "hi"}]` and system prompt
`"be terse"` give `messages = [{system, "be terse"}, {user, "hi"}]`. -/
theorem callAPI_chat_body_witness :
    (callAPI sampleEnv sampleConfig [⟨"user", "hi"⟩]).calls.map Request.body =
      [RequestBody.chat "llama-3.1-8b-instant"
        [⟨"system", "be terse"⟩, ⟨"user", "hi"⟩] ⟨7, 1⟩ 1024] :=
  callAPI_chat_body sampleEnv sampleConfig [⟨"user", "hi"⟩] (Or.inl rfl)

/-- C2: on the huggingface provider `callAPI` hands to `fetch` exactly one
request, and its body is `{ inputs: t, parameters: { max_new_tokens: 512,
temperature: 0.7 } }` where `t` is the line `system: <systemPrompt>`
followed, for every stored entry in order, by a newline and the line
`<role>: <content>`; nothing follows the last line. -/
theorem callAPI_huggingface_body (env : Env) (config : Config) (h : List Message)
    (hp : config.apiProvider = "huggingface") :
    (callAPI env config h).calls.map Request.body =
      [RequestBody.prompt
        ("system: " ++ config.systemPrompt ++
          h.foldr (fun m rest => "\n" ++ (m.role ++ ": " ++ m.content) ++ rest) "")
        512 ⟨7, 1⟩] := by
  rw [callAPI_huggingface env config h hp]
  simp only [callHuggingFaceAPI, huggingFaceRequest, buildPrompt, buildMessages,
    List.map_cons, List.map_nil, jsJoin_cons, List.foldr_map]
  have hline : "system" ++ ": " = "system: " := by decide
  rw [hline]

/-- Witness of C2: transcript `[{user, "hi"}]` and system prompt
`"be terse"` give `inputs = "system: be terse\nuser: hi"`. -/
theorem callAPI_huggingface_body_witness :
    (callAPI sampleEnv sampleHuggingFaceConfig [⟨"user", "hi"⟩]).calls.map Request.body =
      [RequestBody.prompt "system: be terse\nuser: hi" 512 ⟨7, 1⟩] :=
  callAPI_huggingface_body sampleEnv sampleHuggingFaceConfig [⟨"user", "hi"⟩] rfl

/-- Helper: a provider identifier that is neither an own property of
`apiEndpoints` nor a member of `Object.prototype` is rejected before any
request is built. -/
theorem callAPI_unrecognized (env : Env) (config : Config) (h : List Message)
    (hown : apiEndpoints.lookup config.apiProvider = none)
    (hproto : config.apiProvider ∉ objectPrototypeKeys) :
    callAPI env config h = ⟨.error ⟨"Error", "Invalid API provider selected"⟩, []⟩ := by
  simp [callAPI, lookupEndpoint, hown, hproto]

/-- C3 (the code departs from it): with the provider identifier
`"constructor"` the read `apiEndpoints[provider]` finds the member
inherited from `Object.prototype`, so `callAPI` does not stop at the
provider check: it builds the chat-completions body and hands one request
to `fetch`. -/
theorem callAPI_constructor_provider (env : Env) (h : List Message) :
    (callAPI env inheritedProviderConfig h).calls =
      [{ resource := .inherited "constructor"
         method := "POST"
         headers := [("Authorization", "Bearer gsk_test"), ("Content-Type", "application/json")]
         body := .chat "llama-3.1-8b-instant" (⟨"system", "be terse"⟩ :: h) ⟨7, 1⟩ 1024 }] := by
  simp [callAPI, lookupEndpoint, apiEndpoints, List.lookup, objectPrototypeKeys,
    inheritedProviderConfig, sampleConfig, chatRequest, buildMessages]

/-! ## Normalising the response -/

/-- Helper: the content read of `callAPI` on a body whose first choice
carries the message content `c`. -/
theorem extractContent_present (fields choice msg : List (String × JSVal)) (rest : List JSVal)
    (c : JSVal)
    (hchoices : fields.lookup "choices" = some (.arr (.obj choice :: rest)))
    (hmsg : choice.lookup "message" = some (.obj msg))
    (hcontent : msg.lookup "content" = some c) :
    extractContent (.obj fields) = .ok c := by
  simp [extractContent, JSVal.get, JSVal.field, JSVal.at0, JSVal.first, JSVal.optGet,
    hchoices, hmsg, hcontent]

/-- C4: on a chat-completions provider, a response with a 2xx status and
a body `{ choices: [{ message: { content: c } }, ...] }` with `c` a
non-empty string makes `callAPI` return exactly `c`. -/
theorem callAPI_returns_content (env : Env) (config : Config) (h : List Message)
    (status : Nat) (fields choice msg : List (String × JSVal)) (rest : List JSVal) (c : String)
    (hp : config.apiProvider = "groq" ∨ config.apiProvider = "openrouter")
    (hnet : ∀ request ∈ (callAPI env config h).calls,
      env.net request = .response status (.ok (.obj fields)))
    (hok : statusOk status = true)
    (hchoices : fields.lookup "choices" = some (.arr (.obj choice :: rest)))
    (hmsg : choice.lookup "message" = some (.obj msg))
    (hcontent : msg.lookup "content" = some (.str c))
    (hc : c ≠ "") :
    (callAPI env config h).result = .ok (.str c) := by
  obtain ⟨endpoint, hcall⟩ := callAPI_chat_calls env config h hp
  rw [hcall] at hnet ⊢
  have hresp := hnet _ (List.mem_singleton.mpr rfl)
  simp [hresp, chatReply, hok,
    extractContent_present fields choice msg rest (.str c) hchoices hmsg hcontent,
    JSVal.truthy, hc]

/-- Witness of C4: the body `{ choices: [{ message: { content: "ok" } }] }`
yields `"ok"`. -/
theorem callAPI_returns_content_witness :
    (callAPI sampleEnv sampleConfig [⟨"user", "hi"⟩]).result = .ok (.str "ok") :=
  callAPI_returns_content sampleEnv sampleConfig [⟨"user", "hi"⟩] 200
    [("choices", .arr [.obj [("message", .obj [("content", .str "ok")])]])]
    [("message", .obj [("content", .str "ok")])] [("content", .str "ok")] [] "ok"
    (Or.inl rfl) (fun _ _ => rfl) (by decide) (by simp [List.lookup]) (by simp [List.lookup])
    (by simp [List.lookup]) (by decide)

/-- Helper: what a dispatching `sendMessage` leaves in `chatHistory` and
which requests it made, in terms of the `callAPI` run on the transcript that
already holds the new user entry. -/
theorem sendMessage_dispatched (env : Env) (app : App)
    (hinput : jsTrim app.inputValue ≠ "") (hkey : app.config.apiKey ≠ "") :
    (sendMessage env app).2 =
        (callAPI env app.config (app.chatHistory ++ [⟨"user", jsTrim app.inputValue⟩])).calls ∧
    (sendMessage env app).1.config = app.config ∧
    (sendMessage env app).1.chatHistory =
      match (callAPI env app.config
              (app.chatHistory ++ [⟨"user", jsTrim app.inputValue⟩])).result with
      | .ok (.str response) =>
        app.chatHistory ++ [⟨"user", jsTrim app.inputValue⟩, ⟨"assistant", response⟩]
      | _ => app.chatHistory ++ [⟨"user", jsTrim app.inputValue⟩] := by
  refine ⟨?_, ?_, ?_⟩
  · simp [sendMessage, hinput, hkey, addLoadingMessage, addMessage]
  · simp only [sendMessage, hinput, hkey, if_false, addLoadingMessage, addMessage]
    cases hres : (callAPI env app.config
        (app.chatHistory ++ [⟨"user", jsTrim app.inputValue⟩])).result with
    | error e => simp [settle, hres, addMessage, removeMessage]
    | ok v => cases v <;> simp [settle, hres, addMessage, removeMessage]
  · simp only [sendMessage, hinput, hkey, if_false, addLoadingMessage, addMessage]
    cases hres : (callAPI env app.config
        (app.chatHistory ++ [⟨"user", jsTrim app.inputValue⟩])).result with
    | error e => simp [settle, hres, addMessage, removeMessage]
    | ok v => cases v <;> simp [settle, hres, addMessage, removeMessage]

/-- Helper: on each of the five listed shapes of a body without
first-choice content (no `choices`, `choices` empty, first choice without
`message`, `message` without `content`, `content` the empty string) the read
`data.choices[0]?.message?.content` throws or gives a falsy value. -/
theorem extractContent_lacks_shapes (body : JSVal)
    (hshape :
      (∃ fields, body = .obj fields ∧ fields.lookup "choices" = none) ∨
      (∃ fields, body = .obj fields ∧ fields.lookup "choices" = some (.arr [])) ∨
      (∃ fields choice rest, body = .obj fields ∧
        fields.lookup "choices" = some (.arr (.obj choice :: rest)) ∧
        choice.lookup "message" = none) ∨
      (∃ fields choice rest msg, body = .obj fields ∧
        fields.lookup "choices" = some (.arr (.obj choice :: rest)) ∧
        choice.lookup "message" = some (.obj msg) ∧ msg.lookup "content" = none) ∨
      (∃ fields choice rest msg, body = .obj fields ∧
        fields.lookup "choices" = some (.arr (.obj choice :: rest)) ∧
        choice.lookup "message" = some (.obj msg) ∧
        msg.lookup "content" = some (.str ""))) :
    (∃ e, extractContent body = .error e) ∨
    (∃ c, extractContent body = .ok c ∧ c.truthy = false) := by
  rcases hshape with ⟨fields, rfl, h1⟩ | ⟨fields, rfl, h1⟩ | ⟨fields, choice, rest, rfl, h1, h2⟩ |
    ⟨fields, choice, rest, msg, rfl, h1, h2, h3⟩ | ⟨fields, choice, rest, msg, rfl, h1, h2, h3⟩
  · exact Or.inl ⟨readError "undefined" "0", by
      simp [extractContent, JSVal.get, JSVal.field, JSVal.at0, h1]⟩
  · exact Or.inr ⟨.undefined, by
      simp [extractContent, JSVal.get, JSVal.field, JSVal.at0, JSVal.first, JSVal.optGet, h1],
      rfl⟩
  · exact Or.inr ⟨.undefined, by
      simp [extractContent, JSVal.get, JSVal.field, JSVal.at0, JSVal.first, JSVal.optGet, h1, h2],
      rfl⟩
  · exact Or.inr ⟨.undefined, by
      simp [extractContent, JSVal.get, JSVal.field, JSVal.at0, JSVal.first, JSVal.optGet, h1, h2,
        h3], rfl⟩
  · exact Or.inr ⟨.str "", by
      simp [extractContent, JSVal.get, JSVal.field, JSVal.at0, JSVal.first, JSVal.optGet, h1, h2,
        h3], rfl⟩

/-- Helper: a response with a 2xx status whose body is not JSON, or on
whose body the content read throws or gives a falsy value, makes the part of
`callAPI` after the `fetch` fail. -/
theorem chatReply_lacks (status : Nat) (json : Except String JSVal)
    (hok : statusOk status = true)
    (hlacks : (∃ msg, json = .error msg) ∨
      ∃ body, json = .ok body ∧
        ((∃ e, extractContent body = .error e) ∨
         (∃ c, extractContent body = .ok c ∧ c.truthy = false))) :
    ∃ e, chatReply (.response status json) = .error e := by
  rcases hlacks with ⟨msg, rfl⟩ | ⟨body, rfl, ⟨e, he⟩ | ⟨c, hc, hfalsy⟩⟩
  · exact ⟨⟨"SyntaxError", msg⟩, by simp [chatReply, hok]⟩
  · exact ⟨e, by simp [chatReply, hok, he]⟩
  · exact ⟨⟨"Error", "No response from API"⟩, by simp [chatReply, hok, hc, hfalsy]⟩

/-- C6: on a chat-completions provider, a response with a status outside
200-299 and a body `{ error: { message: m } }` with `m` a non-empty string
makes `callAPI` fail with an error whose message is exactly `m`. -/
theorem callAPI_error_envelope (env : Env) (config : Config) (h : List Message)
    (status : Nat) (fields err : List (String × JSVal)) (m : String)
    (hp : config.apiProvider = "groq" ∨ config.apiProvider = "openrouter")
    (hnet : ∀ request ∈ (callAPI env config h).calls,
      env.net request = .response status (.ok (.obj fields)))
    (hnot : statusOk status = false)
    (herr : fields.lookup "error" = some (.obj err))
    (hm : err.lookup "message" = some (.str m))
    (hne : m ≠ "") :
    (callAPI env config h).result = .error ⟨"Error", m⟩ := by
  obtain ⟨endpoint, hcall⟩ := callAPI_chat_calls env config h hp
  rw [hcall] at hnet ⊢
  have hresp := hnet _ (List.mem_singleton.mpr rfl)
  simp [hresp, chatReply, hnot, errorFromResponse, JSVal.get, JSVal.field, JSVal.optGet,
    JSVal.orElse, JSVal.truthy, JSVal.toStr, herr, hm, hne]

/-- Witness of C6: status 401 with the body
`{ error: { message: "bad key" } }` fails with the message `"bad key"`. -/
theorem callAPI_error_envelope_witness :
    (callAPI badKeyEnv sampleConfig [⟨"user", "hi"⟩]).result = .error ⟨"Error", "bad key"⟩ :=
  callAPI_error_envelope badKeyEnv sampleConfig [⟨"user", "hi"⟩] 401
    [("error", .obj [("message", .str "bad key")])] [("message", .str "bad key")] "bad key"
    (Or.inl rfl) (fun _ _ => rfl) (by decide) (by simp [List.lookup]) (by simp [List.lookup])
    (by decide)

/-- Helper: when the body of a failed response is not JSON, or is a value
other than `null` and `undefined` without a truthy `error.message`, the
message of the error `callAPI` throws is `API request failed: ` followed by
the decimal status. -/
theorem errorFromResponse_fallback (status : Nat) (json : Except String JSVal)
    (hbody : (∃ msg, json = .error msg) ∨
      (∃ v, json = .ok v ∧ v ≠ .null ∧ v ≠ .undefined ∧
        ((v.field "error").optGet "message").truthy = false)) :
    errorFromResponse status json = ⟨"Error", "API request failed: " ++ Nat.repr status⟩ := by
  rcases hbody with ⟨msg, rfl⟩ | ⟨v, rfl, hnull, hundef, hfalsy⟩
  · simp [errorFromResponse, JSVal.get, JSVal.field, JSVal.optGet, JSVal.orElse, JSVal.truthy,
      JSVal.toStr, List.lookup]
  · cases v <;>
      simp_all [errorFromResponse, JSVal.get, JSVal.orElse, JSVal.toStr]

/-- Helper: on huggingface every response with a status outside 200-299
fails with `Hugging Face API error: ` followed by the decimal status,
whatever the body. -/
theorem huggingFaceReply_status (status : Nat) (json : Except String JSVal)
    (hnot : statusOk status = false) :
    huggingFaceReply (.response status json) =
      .error ⟨"Error", "Hugging Face API error: " ++ Nat.repr status⟩ := by
  simp [huggingFaceReply, hnot]

/-- Helper: on groq, status 500 with a body that is not JSON fails with the
message `API request failed: 500`. -/
theorem callAPI_unparseable_body :
    (callAPI unparseableEnv sampleConfig [⟨"user", "hi"⟩]).result =
      .error ⟨"Error", "API request failed: 500"⟩ := by
  have hmsg : "API request failed: " ++ Nat.repr 500 = "API request failed: 500" := by decide
  rw [← hmsg, ← errorFromResponse_fallback 500 (.error "Unexpected token < in JSON")
    (Or.inl ⟨_, rfl⟩)]
  simp [callAPI, lookupEndpoint, apiEndpoints, List.lookup, sampleConfig, chatReply,
    unparseableEnv, sampleEnv, statusOk]

/-- C7 (the code departs from it): on groq, status 500 with the JSON body
`null`, a body that carries no `error.message`, makes `callAPI` fail with
the TypeError of the read `errorData.error`; its message does not contain
`500`. -/
theorem callAPI_null_error_body :
    (callAPI nullBodyEnv sampleConfig [⟨"user", "hi"⟩]).result =
        .error ⟨"TypeError", "Cannot read properties of null (reading 'error')"⟩ ∧
    ¬ ((Nat.repr 500).data <:+:
        "Cannot read properties of null (reading 'error')".data) := by
  refine ⟨?_, by decide⟩
  simp [callAPI, lookupEndpoint, apiEndpoints, List.lookup, sampleConfig, chatReply,
    nullBodyEnv, sampleEnv, statusOk, errorFromResponse, JSVal.get, readError]

/-- C8 (the code departs from it): on huggingface, status 401 with the body
`{ error: { message: "bad key" } }` fails with
`Hugging Face API error: 401`: the error envelope is not read, while the
same response on groq fails with `bad key`. -/
theorem callAPI_huggingface_ignores_envelope :
    (callAPI badKeyEnv sampleHuggingFaceConfig [⟨"user", "hi"⟩]).result =
        .error ⟨"Error", "Hugging Face API error: 401"⟩ ∧
    (callAPI badKeyEnv { sampleHuggingFaceConfig with apiProvider := "groq" }
        [⟨"user", "hi"⟩]).result = .error ⟨"Error", "bad key"⟩ := by
  constructor
  · rw [callAPI_huggingface _ _ _ rfl]
    simp only [callHuggingFaceAPI]
    rw [show badKeyEnv.net (huggingFaceRequest sampleHuggingFaceConfig
          (buildMessages sampleHuggingFaceConfig [⟨"user", "hi"⟩])) =
        NetResult.response 401 (.ok (.obj [("error", .obj [("message", .str "bad key")])]))
        from rfl]
    rw [huggingFaceReply_status 401 _ (by decide)]
    have hmsg : "Hugging Face API error: " ++ Nat.repr 401 = "Hugging Face API error: 401" := by
      decide
    rw [hmsg]
  · simp [callAPI, lookupEndpoint, apiEndpoints, List.lookup, sampleHuggingFaceConfig,
      sampleConfig, chatReply, badKeyEnv, sampleEnv, statusOk, errorFromResponse, JSVal.get,
      JSVal.field, JSVal.optGet, JSVal.orElse, JSVal.truthy, JSVal.toStr]

/-- C9: on huggingface, for a response with a 2xx status whose body is an
array, `callHuggingFaceAPI` never fails: it returns the `generated_text` of
the first element when that is present and truthy (a non-empty string in
particular), and the placeholder `No response` when the array is empty,
when the first element has no `generated_text`, and when `generated_text`
is the empty string. -/
theorem callHuggingFaceAPI_reply (env : Env) (config : Config) (messages : List Message)
    (status : Nat) (items : List JSVal)
    (hnet : ∀ request ∈ (callHuggingFaceAPI env config messages).calls,
      env.net request = .response status (.ok (.arr items)))
    (hok : statusOk status = true) :
    (∃ v, (callHuggingFaceAPI env config messages).result = .ok v) ∧
    (items = [] →
      (callHuggingFaceAPI env config messages).result = .ok (.str "No response")) ∧
    (∀ fields rest g, items = .obj fields :: rest →
      fields.lookup "generated_text" = some g → g.truthy = true →
      (callHuggingFaceAPI env config messages).result = .ok g) ∧
    (∀ fields rest, items = .obj fields :: rest →
      fields.lookup "generated_text" = none →
      (callHuggingFaceAPI env config messages).result = .ok (.str "No response")) ∧
    (∀ fields rest, items = .obj fields :: rest →
      fields.lookup "generated_text" = some (.str "") →
      (callHuggingFaceAPI env config messages).result = .ok (.str "No response")) := by
  have hresp := hnet (huggingFaceRequest config messages)
    (by simp [callHuggingFaceAPI])
  have hres : (callHuggingFaceAPI env config messages).result =
      .ok (((items.headD .undefined).optGet "generated_text").orElse (.str "No response")) := by
    simp [callHuggingFaceAPI, hresp, huggingFaceReply, hok, extractGenerated, JSVal.at0,
      JSVal.first]
  refine ⟨⟨_, hres⟩, ?_, ?_, ?_, ?_⟩
  · intro hitems
    rw [hres, hitems]
    simp [JSVal.optGet, JSVal.orElse, JSVal.truthy]
  · intro fields rest g hitems hg htruthy
    rw [hres, hitems]
    simp [JSVal.optGet, JSVal.field, JSVal.orElse, hg, htruthy]
  · intro fields rest hitems hg
    rw [hres, hitems]
    simp [JSVal.optGet, JSVal.field, JSVal.orElse, JSVal.truthy, hg]
  · intro fields rest hitems hg
    rw [hres, hitems]
    simp [JSVal.optGet, JSVal.field, JSVal.orElse, JSVal.truthy, hg]

/-- Witness of C9: the body `[{ generated_text: "hello" }]` yields
`"hello"`. -/
theorem callHuggingFaceAPI_reply_witness :
    (callHuggingFaceAPI generatedEnv sampleHuggingFaceConfig
      [⟨"system", "be terse"⟩, ⟨"user", "hi"⟩]).result = .ok (.str "hello") :=
  (callHuggingFaceAPI_reply generatedEnv sampleHuggingFaceConfig
      [⟨"system", "be terse"⟩, ⟨"user", "hi"⟩] 200 [.obj [("generated_text", .str "hello")]]
      (fun _ _ => rfl) (by decide)).2.2.1
    [("generated_text", .str "hello")] [] (.str "hello") rfl (by simp [List.lookup])
    (by decide)

/-! ## The transcript -/

/-- C11 as stated fails: when the user declines the confirmation,
`clearChat` keeps a non-empty transcript. -/
theorem clearChat_declined_keeps_history :
    (clearChat false sampleApp).chatHistory ≠ [] := by
  decide

/-- C11, amended: when the user confirms, or when the transcript is already
empty (no confirmation is asked), `clearChat` leaves `chatHistory` empty, so
the next dispatch builds the system message alone; when the user declines
on a non-empty transcript the state is unchanged. -/
theorem clearChat_resets (confirmed : Bool) (app : App) :
    ((confirmed = true ∨ app.chatHistory = []) →
      (clearChat confirmed app).chatHistory = [] ∧
      buildMessages (clearChat confirmed app).config (clearChat confirmed app).chatHistory =
        [⟨"system", app.config.systemPrompt⟩]) ∧
    (confirmed = false → app.chatHistory ≠ [] → clearChat confirmed app = app) := by
  constructor
  · intro hclear
    have hguard : ¬ (0 < app.chatHistory.length ∧ confirmed = false) := by
      rcases hclear with hc | hc
      · simp [hc]
      · simp [hc]
    simp [clearChat, hguard, showNotification, buildMessages]
  · intro hdeclined hne
    have hguard : 0 < app.chatHistory.length ∧ confirmed = false :=
      ⟨List.length_pos.mpr hne, hdeclined⟩
    simp [clearChat, hguard]

/-- Witness of C11, amended: a confirmed `clearChat` on a transcript of two
entries leaves it empty. -/
theorem clearChat_resets_witness :
    (clearChat true sampleApp).chatHistory = [] ∧
    buildMessages (clearChat true sampleApp).config (clearChat true sampleApp).chatHistory =
      [⟨"system", "be terse"⟩] :=
  (clearChat_resets true sampleApp).1 (Or.inl rfl)

/-! ## The fetch that is issued -/

/-- Helper: on a recognized provider `callAPI` makes one `fetch`, to the URL
the provider has in `apiEndpoints`, with `POST` and the headers of the
provider. -/
theorem callAPI_recognized_calls (env : Env) (config : Config) (h : List Message)
    (hp : config.apiProvider = "groq" ∨ config.apiProvider = "openrouter" ∨
      config.apiProvider = "huggingface") :
    ∃ address body, apiEndpoints.lookup config.apiProvider = some address ∧
      (callAPI env config h).calls =
        [{ resource := .url address
           method := "POST"
           headers := [("Authorization", "Bearer " ++ config.apiKey),
                       ("Content-Type", "application/json")] ++
                      (if config.apiProvider = "openrouter" then
                        [("HTTP-Referer", env.href), ("X-Title", "AI Chat Educational Demo")]
                       else [])
           body := body }] := by
  rcases hp with hp | hp | hp
  · refine ⟨"https://api.groq.com/openai/v1/chat/completions",
      .chat config.model (buildMessages config h) ⟨7, 1⟩ 1024, ?_, ?_⟩
    · simp [hp, apiEndpoints, List.lookup]
    · simp [callAPI, hp, lookupEndpoint, apiEndpoints, List.lookup, chatRequest]
  · refine ⟨"https://openrouter.ai/api/v1/chat/completions",
      .chat config.model (buildMessages config h) ⟨7, 1⟩ 1024, ?_, ?_⟩
    · simp [hp, apiEndpoints, List.lookup]
    · simp [callAPI, hp, lookupEndpoint, apiEndpoints, List.lookup, chatRequest]
  · refine ⟨"https://api-inference.huggingface.co/models/meta-llama/Llama-2-7b-chat-hf",
      .prompt (buildPrompt (buildMessages config h)) 512 ⟨7, 1⟩, ?_, ?_⟩
    · simp [hp, apiEndpoints, List.lookup]
    · simp [callAPI, hp, lookupEndpoint, apiEndpoints, List.lookup, callHuggingFaceAPI,
        huggingFaceRequest]

/-- C15: on a recognized provider one invocation of `callAPI` makes exactly
one `fetch`, with method `POST`, to the URL the provider has in
`apiEndpoints`, whatever the network answers. -/
theorem callAPI_single_fetch (env : Env) (config : Config) (h : List Message)
    (hp : config.apiProvider = "groq" ∨ config.apiProvider = "openrouter" ∨
      config.apiProvider = "huggingface") :
    ∃ request address, (callAPI env config h).calls = [request] ∧
      request.method = "POST" ∧
      apiEndpoints.lookup config.apiProvider = some address ∧
      request.resource = .url address := by
  obtain ⟨address, body, haddr, hcalls⟩ := callAPI_recognized_calls env config h hp
  exact ⟨_, address, hcalls, rfl, haddr, rfl⟩

/-- Witness of C15: on groq, against a network that answers status 500 with
a body that is not JSON, there is one `POST` to the groq endpoint. -/
theorem callAPI_single_fetch_witness :
    ∃ request address, (callAPI unparseableEnv sampleConfig [⟨"user", "hi"⟩]).calls = [request] ∧
      request.method = "POST" ∧
      apiEndpoints.lookup sampleConfig.apiProvider = some address ∧
      request.resource = .url address :=
  callAPI_single_fetch unparseableEnv sampleConfig [⟨"user", "hi"⟩] (Or.inl rfl)

/-- C16: on a recognized provider the headers of the request are
`Authorization: Bearer <apiKey>` and `Content-Type: application/json`,
followed by `HTTP-Referer` and `X-Title: AI Chat Educational Demo` exactly
when the provider is openrouter; a configuration with the same key and
provider gives the same headers whatever its system prompt, its model and
the transcript. -/
theorem callAPI_headers (env : Env) (config : Config) (h : List Message)
    (hp : config.apiProvider = "groq" ∨ config.apiProvider = "openrouter" ∨
      config.apiProvider = "huggingface") :
    (callAPI env config h).calls.map Request.headers =
      [[("Authorization", "Bearer " ++ config.apiKey), ("Content-Type", "application/json")] ++
        (if config.apiProvider = "openrouter" then
          [("HTTP-Referer", env.href), ("X-Title", "AI Chat Educational Demo")]
         else [])] ∧
    (∀ request ∈ (callAPI env config h).calls,
      ((∃ value, ("HTTP-Referer", value) ∈ request.headers) ↔
        config.apiProvider = "openrouter") ∧
      (("X-Title", "AI Chat Educational Demo") ∈ request.headers ↔
        config.apiProvider = "openrouter")) ∧
    (∀ (other : Config) (h2 : List Message), other.apiKey = config.apiKey →
      other.apiProvider = config.apiProvider →
      (callAPI env other h2).calls.map Request.headers =
        (callAPI env config h).calls.map Request.headers) := by
  obtain ⟨address, body, -, hcalls⟩ := callAPI_recognized_calls env config h hp
  refine ⟨by rw [hcalls]; rfl, ?_, ?_⟩
  · intro request hmem
    rw [hcalls, List.mem_singleton] at hmem
    subst hmem
    by_cases hor : config.apiProvider = "openrouter"
    · simp [hor]
    · simp [hor]
  · intro other h2 hkey hprov
    obtain ⟨address2, body2, -, hcalls2⟩ :=
      callAPI_recognized_calls env other h2 (by rw [hprov]; exact hp)
    rw [hcalls, hcalls2, hkey, hprov]
    rfl

/-- Witness of C16: on openrouter the four headers are sent. -/
theorem callAPI_headers_witness :
    (callAPI sampleEnv sampleOpenRouterConfig [⟨"user", "hi"⟩]).calls.map Request.headers =
      [[("Authorization", "Bearer gsk_test"), ("Content-Type", "application/json"),
        ("HTTP-Referer", "http://localhost:8000/index.html"),
        ("X-Title", "AI Chat Educational Demo")]] :=
  (callAPI_headers sampleEnv sampleOpenRouterConfig [⟨"user", "hi"⟩] (Or.inr (Or.inl rfl))).1

/-- C19: on huggingface the request does not depend on `config.model`: two
configurations that differ only in the model make the same `fetch`, and its
URL is the fixed `Llama-2-7b-chat-hf` endpoint. -/
theorem callAPI_huggingface_ignores_model (env : Env) (config : Config) (other : String)
    (h : List Message) (hp : config.apiProvider = "huggingface") :
    (callAPI env { config with model := other } h).calls = (callAPI env config h).calls ∧
    (callAPI env config h).calls.map Request.resource =
      [.url "https://api-inference.huggingface.co/models/meta-llama/Llama-2-7b-chat-hf"] := by
  have hp2 : ({ config with model := other } : Config).apiProvider = "huggingface" := hp
  rw [callAPI_huggingface env _ h hp2, callAPI_huggingface env config h hp]
  constructor
  · simp [callHuggingFaceAPI, huggingFaceRequest, buildMessages]
  · simp [callHuggingFaceAPI, huggingFaceRequest, apiEndpoints, List.lookup]

/-- Witness of C19: with the model `google/flan-t5-large` selected the
request still goes to the `Llama-2-7b-chat-hf` endpoint, as it does with
`mistralai/Mistral-7B-Instruct-v0.1`. -/
theorem callAPI_huggingface_ignores_model_witness :
    (callAPI sampleEnv
        { sampleHuggingFaceConfig with model := "mistralai/Mistral-7B-Instruct-v0.1" }
        [⟨"user", "hi"⟩]).calls =
      (callAPI sampleEnv sampleHuggingFaceConfig [⟨"user", "hi"⟩]).calls ∧
    (callAPI sampleEnv sampleHuggingFaceConfig [⟨"user", "hi"⟩]).calls.map Request.resource =
      [.url "https://api-inference.huggingface.co/models/meta-llama/Llama-2-7b-chat-hf"] :=
  callAPI_huggingface_ignores_model sampleEnv sampleHuggingFaceConfig
    "mistralai/Mistral-7B-Instruct-v0.1" [⟨"user", "hi"⟩] rfl

/-! ## Blocked submissions -/

/-- Helper: with an empty API key and a non-blank input `sendMessage` makes
no `fetch`, leaves the transcript and the message list as they are, records
the notification and flips the settings panel. -/
theorem sendMessage_missing_key (env : Env) (app : App)
    (hinput : jsTrim app.inputValue ≠ "") (hkey : app.config.apiKey = "") :
    (sendMessage env app).2 = [] ∧
    (sendMessage env app).1.chatHistory = app.chatHistory ∧
    (sendMessage env app).1.bubbles = app.bubbles ∧
    (sendMessage env app).1.settingsActive = !app.settingsActive ∧
    (sendMessage env app).1.notifications =
      app.notifications ++ [("Please configure your API key in settings", "error")] := by
  simp [sendMessage, hinput, hkey, toggleSettings, showNotification]

/-- C14 (the code departs from it): starting from the unconfigured
application, when the user opens the settings panel, types `hi` and submits
it, `sendMessage` blocks the dispatch (no `fetch`, transcript and message
list unchanged) but `toggleSettings` closes the panel that was open. -/
theorem sendMessage_missing_key_closes_panel :
    (run unconfiguredApp [.toggle, .typeText "hi"]).settingsActive = true ∧
    (sendMessage sampleEnv (run unconfiguredApp [.toggle, .typeText "hi"])).2 = [] ∧
    (sendMessage sampleEnv (run unconfiguredApp [.toggle, .typeText "hi"])).1.chatHistory = [] ∧
    (sendMessage sampleEnv (run unconfiguredApp [.toggle, .typeText "hi"])).1.bubbles = [] ∧
    (sendMessage sampleEnv
      (run unconfiguredApp [.toggle, .typeText "hi"])).1.settingsActive = false := by
  decide

/-! ## What the transcript holds -/

/-- Helper: whatever `callAPI` returns is truthy. -/
theorem callAPI_ok_truthy (env : Env) (config : Config) (h : List Message) (v : JSVal)
    (hres : (callAPI env config h).result = .ok v) : v.truthy = true := by
  unfold callAPI at hres
  split at hres
  · simp at hres
  · split at hres
    · simp only [callHuggingFaceAPI, huggingFaceReply] at hres
      split at hres
      · simp at hres
      · split at hres
        · simp at hres
        · split at hres
          · simp at hres
          · simp only [extractGenerated] at hres
            split at hres
            · simp at hres
            · simp only [Except.ok.injEq] at hres
              subst hres
              unfold JSVal.orElse
              split
              · assumption
              · rfl
    · simp only [chatReply] at hres
      split at hres
      · simp at hres
      · split at hres
        · simp at hres
        · split at hres
          · simp at hres
          · split at hres
            · simp at hres
            · split at hres
              · simp at hres
              · rename_i hfalsy
                simp only [Except.ok.injEq] at hres
                subst hres
                simpa using hfalsy

/-- Helper: the three ways `sendMessage` can leave the transcript. -/
theorem sendMessage_history_cases (env : Env) (app : App) :
    (sendMessage env app).1.chatHistory = app.chatHistory ∨
    (jsTrim app.inputValue ≠ "" ∧
      ((sendMessage env app).1.chatHistory =
          app.chatHistory ++ [⟨"user", jsTrim app.inputValue⟩] ∨
       ∃ reply, reply ≠ "" ∧ (sendMessage env app).1.chatHistory =
          app.chatHistory ++ [⟨"user", jsTrim app.inputValue⟩, ⟨"assistant", reply⟩])) := by
  by_cases hinput : jsTrim app.inputValue = ""
  · left
    simp [sendMessage, hinput]
  · by_cases hkey : app.config.apiKey = ""
    · left
      simp [sendMessage, hinput, hkey, toggleSettings, showNotification]
    · right
      refine ⟨hinput, ?_⟩
      obtain ⟨-, -, hhist⟩ := sendMessage_dispatched env app hinput hkey
      rw [hhist]
      split
      · rename_i response hres
        right
        refine ⟨response, ?_, rfl⟩
        have htruthy := callAPI_ok_truthy env app.config _ _ hres
        simpa [JSVal.truthy] using htruthy
      · left
        rfl

/-- Helper: every transcript entry of the state after one action is an
entry of the state before it, or a user or assistant entry with non-empty
content. -/
theorem step_history_entries (app : App) (action : Action) :
    ∀ m ∈ (step app action).chatHistory, m ∈ app.chatHistory ∨
      ((m.role = "user" ∨ m.role = "assistant") ∧ m.content ≠ "") := by
  intro m hm
  cases action with
  | typeText text => exact Or.inl hm
  | toggle => exact Or.inl hm
  | save form => exact Or.inl hm
  | clear confirmed =>
    left
    simp only [step, clearChat] at hm
    split at hm
    · exact hm
    · simp [showNotification] at hm
  | send env =>
    simp only [step] at hm
    rcases sendMessage_history_cases env app with hsame | ⟨hinput, hone | ⟨reply, hreply, htwo⟩⟩
    · rw [hsame] at hm
      exact Or.inl hm
    · rw [hone, List.mem_append, List.mem_singleton] at hm
      rcases hm with hm | hm
      · exact Or.inl hm
      · right
        subst hm
        exact ⟨Or.inl rfl, hinput⟩
    · rw [htwo, List.mem_append] at hm
      rcases hm with hm | hm
      · exact Or.inl hm
      · right
        simp only [List.mem_cons, List.mem_singleton, List.not_mem_nil, or_false] at hm
        rcases hm with hm | hm
        · subst hm
          exact ⟨Or.inl rfl, hinput⟩
        · subst hm
          exact ⟨Or.inr rfl, hreply⟩

/-- Helper: the same for a sequence of actions. -/
theorem run_history_entries (actions : List Action) (app : App) :
    ∀ m ∈ (run app actions).chatHistory, m ∈ app.chatHistory ∨
      ((m.role = "user" ∨ m.role = "assistant") ∧ m.content ≠ "") := by
  induction actions generalizing app with
  | nil => intro m hm; exact Or.inl hm
  | cons action rest ih =>
    intro m hm
    have hrun : run app (action :: rest) = run (step app action) rest := rfl
    rw [hrun] at hm
    rcases ih (step app action) m hm with hold | hnew
    · exact step_history_entries app action m hold
    · exact Or.inr hnew

/-- C12: in every state reached from an empty transcript by typing,
sending, clearing, opening or closing the settings and saving them, every
transcript entry has the role `user` or `assistant` and none has the role
`system`; the system message is the head of the list `callAPI` builds at
dispatch time and nothing else in that list. -/
theorem run_no_system_entry (app : App) (actions : List Action)
    (hinit : app.chatHistory = []) :
    (∀ m ∈ (run app actions).chatHistory, m.role = "user" ∨ m.role = "assistant") ∧
    (∀ m ∈ (run app actions).chatHistory, m.role ≠ "system") ∧
    (∃ rest, buildMessages (run app actions).config (run app actions).chatHistory =
        ⟨"system", (run app actions).config.systemPrompt⟩ :: rest ∧
      ∀ m ∈ rest, m.role ≠ "system") := by
  have hroles : ∀ m ∈ (run app actions).chatHistory, m.role = "user" ∨ m.role = "assistant" := by
    intro m hm
    rcases run_history_entries actions app m hm with hold | hnew
    · rw [hinit] at hold
      cases hold
    · exact hnew.1
  have hnosys : ∀ m ∈ (run app actions).chatHistory, m.role ≠ "system" := by
    intro m hm hsys
    rcases hroles m hm with hr | hr
    · rw [hr] at hsys
      exact absurd hsys (by decide)
    · rw [hr] at hsys
      exact absurd hsys (by decide)
  exact ⟨hroles, hnosys, _, rfl, hnosys⟩

/-- Witness of C12: after one exchange from the freshly constructed
application the roles in the transcript are `user` and `assistant`. -/
theorem run_no_system_entry_witness :
    (∀ m ∈ (run configuredApp [.typeText "hi", .send sampleEnv]).chatHistory,
      m.role = "user" ∨ m.role = "assistant") ∧
    (∀ m ∈ (run configuredApp [.typeText "hi", .send sampleEnv]).chatHistory,
      m.role ≠ "system") ∧
    (∃ rest, buildMessages (run configuredApp [.typeText "hi", .send sampleEnv]).config
        (run configuredApp [.typeText "hi", .send sampleEnv]).chatHistory =
        ⟨"system", (run configuredApp [.typeText "hi", .send sampleEnv]).config.systemPrompt⟩ ::
          rest ∧
      ∀ m ∈ rest, m.role ≠ "system") :=
  run_no_system_entry configuredApp [.typeText "hi", .send sampleEnv] rfl

/-- C18: in every state reached from an empty transcript every stored entry
has non-empty content; a submission that is blank after trimming changes
nothing and makes no `fetch`; and a string that `callAPI` returns, the only
thing stored as an assistant entry, is never empty. -/
theorem run_entries_nonempty (app : App) (actions : List Action)
    (hinit : app.chatHistory = []) :
    (∀ m ∈ (run app actions).chatHistory, m.content ≠ "") ∧
    (∀ (env : Env) (state : App), jsTrim state.inputValue = "" →
      sendMessage env state = (state, [])) ∧
    (∀ (env : Env) (config : Config) (h : List Message) (reply : String),
      (callAPI env config h).result = .ok (.str reply) → reply ≠ "") := by
  refine ⟨?_, ?_, ?_⟩
  · intro m hm
    rcases run_history_entries actions app m hm with hold | hnew
    · rw [hinit] at hold
      cases hold
    · exact hnew.2
  · intro env state hblank
    simp [sendMessage, hblank]
  · intro env config h reply hres
    have htruthy := callAPI_ok_truthy env config h _ hres
    simpa [JSVal.truthy] using htruthy

/-- Witness of C18: after a blank submission and one exchange from the
freshly constructed application no stored entry is empty, and the blank
submission itself changes nothing and makes no `fetch`. -/
theorem run_entries_nonempty_witness :
    (∀ m ∈ (run configuredApp
        [.typeText "  \n", .send sampleEnv, .typeText "hi", .send sampleEnv]).chatHistory,
      m.content ≠ "") ∧
    sendMessage sampleEnv (run configuredApp [.typeText "  \n"]) =
      (run configuredApp [.typeText "  \n"], []) :=
  ⟨(run_entries_nonempty configuredApp
      [.typeText "  \n", .send sampleEnv, .typeText "hi", .send sampleEnv] rfl).1,
   (run_entries_nonempty configuredApp
      [.typeText "  \n", .send sampleEnv, .typeText "hi", .send sampleEnv] rfl).2.1
      sampleEnv (run configuredApp [.typeText "  \n"]) (by decide)⟩

/-! ## The visible message list -/

/-- Helper: the id of a message bubble is never the id of a loading
placeholder. -/
theorem msg_ne_loading (a b : String) : "msg-" ++ a ≠ "loading-" ++ b := by
  intro heq
  have hdata := congrArg String.data heq
  simp at hdata

/-- Helper: removing an id that no element carries changes nothing. -/
theorem removeFirst_absent (id : String) (bubbles : List Bubble)
    (habsent : ∀ b ∈ bubbles, b.id ≠ id) : removeFirst id bubbles = bubbles := by
  induction bubbles with
  | nil => rfl
  | cons b rest ih =>
    have hb : b.id ≠ id := habsent b (List.mem_cons_self b rest)
    have hrest : ∀ x ∈ rest, x.id ≠ id := fun x hx => habsent x (List.mem_cons_of_mem b hx)
    simp [removeFirst, hb, ih hrest]

/-- Helper: when no earlier element carries the id, removing it takes out
the element that was appended with it. -/
theorem removeFirst_appended (id : String) (bubbles : List Bubble) (placeholder : Bubble)
    (habsent : ∀ b ∈ bubbles, b.id ≠ id) (hid : placeholder.id = id) :
    removeFirst id (bubbles ++ [placeholder]) = bubbles := by
  induction bubbles with
  | nil => simp [removeFirst, hid]
  | cons b rest ih =>
    have hb : b.id ≠ id := habsent b (List.mem_cons_self b rest)
    have hrest : ∀ x ∈ rest, x.id ≠ id := fun x hx => habsent x (List.mem_cons_of_mem b hx)
    simp [removeFirst, hb, ih hrest]

/-- Helper: the message list a dispatching `sendMessage` leaves when no
element carried the id of the new loading placeholder: the old list, the
user bubble and one assistant bubble with the reply or the error text. -/
theorem sendMessage_bubbles (env : Env) (app : App)
    (hinput : jsTrim app.inputValue ≠ "") (hkey : app.config.apiKey ≠ "")
    (hfresh : ∀ b ∈ app.bubbles, b.id ≠ "loading-" ++ Nat.repr env.tLoading) :
    (sendMessage env app).1.bubbles =
      app.bubbles ++
        [⟨"msg-" ++ Nat.repr env.tUser, "message user", some (jsTrim app.inputValue)⟩,
         ⟨"msg-" ++ Nat.repr env.tReply, "message assistant",
          some (match (callAPI env app.config
                  (app.chatHistory ++ [⟨"user", jsTrim app.inputValue⟩])).result with
            | .ok (.str response) => response
            | .ok _ => "Error: " ++ "content.replace is not a function"
            | .error e => "Error: " ++ e.message)⟩] := by
  have hshown : ∀ b ∈ app.bubbles ++
      [(⟨"msg-" ++ Nat.repr env.tUser, "message user", some (jsTrim app.inputValue)⟩ : Bubble)],
      b.id ≠ "loading-" ++ Nat.repr env.tLoading := by
    intro b hb
    rw [List.mem_append, List.mem_singleton] at hb
    rcases hb with hb | hb
    · exact hfresh b hb
    · subst hb
      exact msg_ne_loading _ _
  have hremoved := removeFirst_appended ("loading-" ++ Nat.repr env.tLoading)
    (app.bubbles ++
      [(⟨"msg-" ++ Nat.repr env.tUser, "message user", some (jsTrim app.inputValue)⟩ : Bubble)])
    ⟨"loading-" ++ Nat.repr env.tLoading, "message assistant", none⟩ hshown rfl
  have hagain := removeFirst_absent ("loading-" ++ Nat.repr env.tLoading) _ hshown
  simp only [List.append_assoc, List.singleton_append] at hremoved hagain
  simp only [sendMessage, hinput, hkey, if_false, addLoadingMessage, addMessage]
  cases hres : (callAPI env app.config
      (app.chatHistory ++ [⟨"user", jsTrim app.inputValue⟩])).result with
  | error e =>
    simp [settle, hres, addMessage, removeMessage, hremoved]
  | ok v =>
    cases v <;> simp [settle, hres, addMessage, removeMessage, hremoved, hagain]

/-- C13: when `callAPI` fails with the error `e` and no element of the page
already carries the id given to the new loading placeholder, `sendMessage`
(a total function: nothing is thrown out of it) leaves the old message list
followed by the user bubble and exactly one assistant bubble with the text
`Error: ` followed by `e.message`; the send button is enabled again, and
no element with the id of the loading placeholder remains. -/
theorem sendMessage_recovers (env : Env) (app : App) (e : JSError)
    (hinput : jsTrim app.inputValue ≠ "") (hkey : app.config.apiKey ≠ "")
    (hfresh : ∀ b ∈ app.bubbles, b.id ≠ "loading-" ++ Nat.repr env.tLoading)
    (hfail : (callAPI env app.config
      (app.chatHistory ++ [⟨"user", jsTrim app.inputValue⟩])).result = .error e) :
    (sendMessage env app).1.bubbles =
      app.bubbles ++
        [⟨"msg-" ++ Nat.repr env.tUser, "message user", some (jsTrim app.inputValue)⟩,
         ⟨"msg-" ++ Nat.repr env.tReply, "message assistant", some ("Error: " ++ e.message)⟩] ∧
    (sendMessage env app).1.sendDisabled = false ∧
    (∀ b ∈ (sendMessage env app).1.bubbles, b.id ≠ "loading-" ++ Nat.repr env.tLoading) := by
  have hbubbles := sendMessage_bubbles env app hinput hkey hfresh
  rw [hfail] at hbubbles
  simp only at hbubbles
  refine ⟨hbubbles, ?_, ?_⟩
  · simp [sendMessage, hinput, hkey]
  · intro b hb
    rw [hbubbles, List.mem_append] at hb
    rcases hb with hb | hb
    · exact hfresh b hb
    · simp only [List.mem_cons, List.mem_singleton, List.not_mem_nil, or_false] at hb
      rcases hb with hb | hb
      · subst hb
        exact msg_ne_loading _ _
      · subst hb
        exact msg_ne_loading _ _

/-- Witness of C13: on groq, status 401 with the error message `bad key`
leaves the bubbles `ping`, `pong`, `hi` and `Error: bad key`. -/
theorem sendMessage_recovers_witness :
    (sendMessage badKeyEnv sampleApp).1.bubbles =
      [⟨"msg-1699999999000", "message user", some "ping"⟩,
       ⟨"msg-1699999999500", "message assistant", some "pong"⟩,
       ⟨"msg-1700000000000", "message user", some "hi"⟩,
       ⟨"msg-1700000000900", "message assistant", some "Error: bad key"⟩] ∧
    (sendMessage badKeyEnv sampleApp).1.sendDisabled = false ∧
    (∀ b ∈ (sendMessage badKeyEnv sampleApp).1.bubbles, b.id ≠ "loading-1700000000001") :=
  sendMessage_recovers badKeyEnv sampleApp ⟨"Error", "bad key"⟩ (by decide) (by decide)
    (by decide) (by
      simp [callAPI, lookupEndpoint, apiEndpoints, List.lookup, sampleApp, sampleConfig,
        chatReply, badKeyEnv, sampleEnv, statusOk, errorFromResponse, JSVal.get, JSVal.field,
        JSVal.optGet, JSVal.orElse, JSVal.truthy, JSVal.toStr])

/-- Helper: one action keeps the message list free of ids of loading
placeholders. -/
theorem step_no_loading_id (app : App) (action : Action)
    (hclean : ∀ b ∈ app.bubbles, ∀ t : Nat, b.id ≠ "loading-" ++ Nat.repr t) :
    ∀ b ∈ (step app action).bubbles, ∀ t : Nat, b.id ≠ "loading-" ++ Nat.repr t := by
  cases action with
  | typeText text => exact hclean
  | toggle => exact hclean
  | save form => exact hclean
  | clear confirmed =>
    intro b hb
    simp only [step, clearChat] at hb
    split at hb
    · exact hclean b hb
    · simp [showNotification] at hb
  | send env =>
    intro b hb t
    simp only [step] at hb
    by_cases hinput : jsTrim app.inputValue = ""
    · have hsame : sendMessage env app = (app, []) := by simp [sendMessage, hinput]
      rw [hsame] at hb
      exact hclean b hb t
    · by_cases hkey : app.config.apiKey = ""
      · rw [(sendMessage_missing_key env app hinput hkey).2.2.1] at hb
        exact hclean b hb t
      · rw [sendMessage_bubbles env app hinput hkey (fun x hx => hclean x hx env.tLoading),
          List.mem_append] at hb
        rcases hb with hb | hb
        · exact hclean b hb t
        · simp only [List.mem_cons, List.mem_singleton, List.not_mem_nil, or_false] at hb
          rcases hb with hb | hb
          · subst hb
            exact msg_ne_loading _ _
          · subst hb
            exact msg_ne_loading _ _

/-- Helper: in every state reached from a message list without ids of
loading placeholders, no element carries such an id, so the id of the next
placeholder is always fresh. -/
theorem run_no_loading_id (actions : List Action) (app : App)
    (hclean : ∀ b ∈ app.bubbles, ∀ t : Nat, b.id ≠ "loading-" ++ Nat.repr t) :
    ∀ b ∈ (run app actions).bubbles, ∀ t : Nat, b.id ≠ "loading-" ++ Nat.repr t := by
  induction actions generalizing app with
  | nil => exact hclean
  | cons action rest ih =>
    have hrun : run app (action :: rest) = run (step app action) rest := rfl
    rw [hrun]
    exact ih (step app action) (step_no_loading_id app action hclean)

/-! ## Rendering -/

/-- Helper: two tag-safe texts put together are tag-safe. -/
theorem tagSafe_append (a b : List Char) (ha : TagSafe a) (hb : TagSafe b) : TagSafe (a ++ b) := by
  induction ha with
  | nil => simpa using hb
  | char c rest hlt hgt _ ih => exact TagSafe.char c (rest ++ b) hlt hgt ih
  | tag t rest ht _ ih =>
    rw [List.append_assoc]
    exact TagSafe.tag t (rest ++ b) ht ih

/-- Helper: a text without `<` and `>` is tag-safe. -/
theorem tagSafe_of_plain (cs : List Char) (hplain : ∀ c ∈ cs, c ≠ '<' ∧ c ≠ '>') :
    TagSafe cs := by
  induction cs with
  | nil => exact TagSafe.nil
  | cons c rest ih =>
    exact TagSafe.char c rest (hplain c (List.mem_cons_self c rest)).1
      (hplain c (List.mem_cons_self c rest)).2
      (ih (fun x hx => hplain x (List.mem_cons_of_mem c hx)))

/-- Helper: after the escaping step no `<` and no `>` is left. -/
theorem escapeHtml_plain (cs : List Char) : ∀ c ∈ escapeHtml cs, c ≠ '<' ∧ c ≠ '>' := by
  intro c hc
  simp only [escapeHtml, escapePass, List.mem_flatMap] at hc
  obtain ⟨d, ⟨e, ⟨f, _, he⟩, hd⟩, hc⟩ := hc
  split at hc
  · simp at hc
    rcases hc with rfl | rfl | rfl | rfl <;> decide
  · rename_i hdgt
    simp only [List.mem_singleton] at hc
    subst hc
    refine ⟨?_, hdgt⟩
    split at hd
    · simp at hd
      rcases hd with rfl | rfl | rfl | rfl <;> decide
    · rename_i helt
      simp only [List.mem_singleton] at hd
      subst hd
      exact helt

/-- Helper: passing over `skip` characters is dropping them. -/
theorem replaceAll_skip (matchAt : List Char → Option (List Char × Nat)) (cs : List Char)
    (skip : Nat) : replaceAll matchAt skip cs = replaceAll matchAt 0 (cs.drop skip) := by
  induction cs generalizing skip with
  | nil => simp [replaceAll]
  | cons c rest ih =>
    cases skip with
    | zero => rfl
    | succ k => simp only [replaceAll, List.drop_succ_cons]; exact ih k

/-- Helper: a relation between input and output that holds for the empty
text, is kept by a copied character and is kept by a replaced match holds
between every text and its global replacement. -/
theorem replaceAll_rel (matchAt : List Char → Option (List Char × Nat))
    (Rel : List Char → List Char → Prop) (hnil : Rel [] [])
    (hkeep : ∀ c cs out, matchAt (c :: cs) = none → Rel cs out → Rel (c :: cs) (c :: out))
    (hrepl : ∀ c cs r len out, matchAt (c :: cs) = some (r, len) →
      Rel (cs.drop (len - 1)) out → Rel (c :: cs) (r ++ out)) :
    ∀ cs, Rel cs (replaceAll matchAt 0 cs) := by
  have hall : ∀ n (cs : List Char), cs.length ≤ n → Rel cs (replaceAll matchAt 0 cs) := by
    intro n
    induction n with
    | zero =>
      intro cs hlen
      have hcs : cs = [] := List.length_eq_zero.mp (Nat.le_zero.mp hlen)
      subst hcs
      simpa [replaceAll] using hnil
    | succ n ih =>
      intro cs hlen
      cases cs with
      | nil => simpa [replaceAll] using hnil
      | cons c rest =>
        have hrest : rest.length ≤ n := by simpa using hlen
        cases hm : matchAt (c :: rest) with
        | none =>
          simp only [replaceAll, hm]
          exact hkeep c rest _ hm (ih rest hrest)
        | some found =>
          obtain ⟨r, len⟩ := found
          simp only [replaceAll, hm]
          rw [replaceAll_skip]
          refine hrepl c rest r len _ hm (ih _ ?_)
          exact Nat.le_trans (by simp) hrest
  intro cs
  exact hall cs.length cs (Nat.le_refl _)

/-- Helper: the body found in front of the closing fence is made of
characters of the text. -/
theorem findFence_mem (body code : List Char) (hfound : findFence body = some code) :
    ∀ x ∈ code, x ∈ body := by
  induction body generalizing code with
  | nil => simp [findFence] at hfound
  | cons c rest ih =>
    simp only [findFence] at hfound
    split at hfound
    · simp only [Option.some.injEq] at hfound
      subst hfound
      intro x hx
      cases hx
    · cases hrest : findFence rest with
      | none => simp [hrest] at hfound
      | some inner =>
        simp only [hrest, Option.map_some', Option.some.injEq] at hfound
        subst hfound
        intro x hx
        rcases List.mem_cons.mp hx with hx | hx
        · exact hx ▸ List.mem_cons_self c rest
        · exact List.mem_cons_of_mem c (ih inner hrest x hx)

/-- Helper: `trim()` only removes characters. -/
theorem jsTrim_mem (s : String) : ∀ x ∈ (jsTrim s).data, x ∈ s.data := by
  intro x hx
  simp only [jsTrim, List.mem_reverse] at hx
  have h1 := (List.dropWhile_sublist isJSWhitespace).subset hx
  rw [List.mem_reverse] at h1
  exact (List.dropWhile_sublist isJSWhitespace).subset h1

/-- Helper: the replacement of a code block is `<pre><code>`, the trimmed
body and `</code></pre>`, the body being made of characters of the text. -/
theorem matchBlock_some (cs r : List Char) (len : Nat) (hfound : matchBlock cs = some (r, len)) :
    ∃ code, r = "<pre><code>".data ++ (jsTrim (String.mk code)).data ++ "</code></pre>".data ∧
      ∀ x ∈ code, x ∈ cs := by
  unfold matchBlock at hfound
  split at hfound
  · simp only at hfound
    split at hfound
    · simp at hfound
    · rename_i c body hdrop
      split at hfound
      · split at hfound
        · simp at hfound
        · rename_i code hcode
          simp only [Option.some.injEq, Prod.mk.injEq] at hfound
          refine ⟨code, hfound.1.symm, ?_⟩
          intro x hx
          have hbody : x ∈ body := findFence_mem body code hcode x hx
          have h1 : x ∈ List.dropWhile isWordChar (List.drop 3 cs) := by
            rw [hdrop]
            exact List.mem_cons_of_mem c hbody
          have h2 := (List.dropWhile_sublist isWordChar).subset h1
          exact List.mem_of_mem_drop h2
      · simp at hfound
  · simp at hfound

/-- Helper: the code-block step turns a text without `<` and `>` into a
tag-safe text. -/
theorem replaceBlocks_tagSafe (cs : List Char) (hplain : ∀ c ∈ cs, c ≠ '<' ∧ c ≠ '>') :
    TagSafe (replaceAll matchBlock 0 cs) := by
  refine replaceAll_rel matchBlock
    (fun xs ys => (∀ c ∈ xs, c ≠ '<' ∧ c ≠ '>') → TagSafe ys) (fun _ => TagSafe.nil)
    ?_ ?_ cs hplain
  · intro c rest out _ hrest hall
    exact TagSafe.char c out (hall c (List.mem_cons_self c rest)).1
      (hall c (List.mem_cons_self c rest)).2
      (hrest (fun x hx => hall x (List.mem_cons_of_mem c hx)))
  · intro c rest r len out hm hrest hall
    obtain ⟨code, hr, hcode⟩ := matchBlock_some (c :: rest) r len hm
    have hout : TagSafe out :=
      hrest (fun x hx => hall x (List.mem_cons_of_mem c (List.mem_of_mem_drop hx)))
    have htrim : TagSafe (jsTrim (String.mk code)).data :=
      tagSafe_of_plain _ (fun x hx => hall x (hcode x (jsTrim_mem (String.mk code) x hx)))
    have hopen : "<pre><code>".data = "<pre>".data ++ "<code>".data := by decide
    have hclose : "</code></pre>".data = "</code>".data ++ "</pre>".data := by decide
    rw [hr, hopen, hclose]
    simp only [List.append_assoc]
    refine TagSafe.tag _ _ (by simp [insertedTags]) (TagSafe.tag _ _ (by simp [insertedTags]) ?_)
    refine tagSafe_append _ _ htrim ?_
    exact TagSafe.tag _ _ (by simp [insertedTags]) (TagSafe.tag _ _ (by simp [insertedTags]) hout)

/-- Helper: a match of the inline pattern is a backtick, a run, a backtick,
and its replacement is `<code>`, the run and `</code>`. -/
theorem matchInline_some (c : Char) (cs r : List Char) (len : Nat)
    (hfound : matchInline (c :: cs) = some (r, len)) :
    c = backtick ∧ ∃ run rest, cs = run ++ backtick :: rest ∧
      r = "<code>".data ++ run ++ "</code>".data ∧ len = run.length + 2 := by
  simp only [matchInline] at hfound
  split at hfound
  · rename_i hc
    refine ⟨hc, ?_⟩
    split at hfound
    · simp at hfound
    · rename_i d rest hdrop
      split at hfound
      · simp at hfound
      · simp only [Option.some.injEq, Prod.mk.injEq] at hfound
        refine ⟨cs.takeWhile (fun x => x != backtick), rest, ?_, hfound.1.symm, hfound.2.symm⟩
        have hd : d = backtick := by
          have hhead := List.head_dropWhile_not (fun x => x != backtick) cs
            (by rw [hdrop]; simp)
          simp only [hdrop, List.head_cons] at hhead
          simpa using hhead
        subst hd
        rw [← hdrop, List.takeWhile_append_dropWhile]
  · simp at hfound

/-- Helper: a run of kept characters in front of related texts. -/
theorem inlineSubst_run (run xs ys : List Char) (hsub : InlineSubst xs ys) :
    InlineSubst (run ++ xs) (run ++ ys) := by
  induction run with
  | nil => exact hsub
  | cons c rest ih => exact InlineSubst.keep c _ _ ih

/-- Helper: the inline-code step only replaces backticks by `<code>` and
`</code>`. -/
theorem replaceInline_subst (cs : List Char) :
    InlineSubst cs (replaceAll matchInline 0 cs) := by
  refine replaceAll_rel matchInline InlineSubst InlineSubst.nil ?_ ?_ cs
  · intro c rest out _ hrest
    exact InlineSubst.keep c rest out hrest
  · intro c rest r len out hm hrest
    obtain ⟨hc, run, tail, hcs, hr, hlen⟩ := matchInline_some c rest r len hm
    have hdrop : rest.drop (len - 1) = tail := by
      rw [hcs, hlen]
      simp
    rw [hdrop] at hrest
    rw [hc, hcs, hr]
    simp only [List.append_assoc]
    exact InlineSubst.opened _ _ (inlineSubst_run run _ _ (InlineSubst.closed tail out hrest))

/-- Helper: a piece of text without backticks goes through the inline-code
step unchanged. -/
theorem inlineSubst_tag (t rest ys : List Char) (hclean : ∀ c ∈ t, c ≠ backtick)
    (hsub : InlineSubst (t ++ rest) ys) : ∃ tail, ys = t ++ tail ∧ InlineSubst rest tail := by
  induction t generalizing ys with
  | nil => exact ⟨ys, rfl, hsub⟩
  | cons c more ih =>
    have hc : c ≠ backtick := hclean c (List.mem_cons_self c more)
    have hmore : ∀ x ∈ more, x ≠ backtick := fun x hx => hclean x (List.mem_cons_of_mem c hx)
    cases hsub with
    | keep _ _ ys2 hrest =>
      obtain ⟨tail, htail, hsubtail⟩ := ih ys2 hmore hrest
      exact ⟨tail, by rw [htail]; rfl, hsubtail⟩
    | opened _ ys2 hrest => exact absurd rfl hc
    | closed _ ys2 hrest => exact absurd rfl hc

/-- Helper: the inserted tags hold no backtick and no newline. -/
theorem insertedTags_clean (t : List Char) (ht : t ∈ insertedTags) :
    (∀ c ∈ t, c ≠ backtick) ∧ (∀ c ∈ t, c ≠ '\n') := by
  simp only [insertedTags, List.mem_cons, List.mem_singleton, List.not_mem_nil, or_false] at ht
  rcases ht with rfl | rfl | rfl | rfl | rfl <;> decide

/-- Helper: replacing backticks by `<code>` and `</code>` keeps a text
tag-safe. -/
theorem tagSafe_subst (xs ys : List Char) (hsafe : TagSafe xs) (hsub : InlineSubst xs ys) :
    TagSafe ys := by
  induction hsafe generalizing ys with
  | nil =>
    cases hsub
    exact TagSafe.nil
  | char c rest hlt hgt _ ih =>
    cases hsub with
    | keep _ _ ys2 hrest => exact TagSafe.char c ys2 hlt hgt (ih ys2 hrest)
    | opened _ ys2 hrest => exact TagSafe.tag _ ys2 (by simp [insertedTags]) (ih ys2 hrest)
    | closed _ ys2 hrest => exact TagSafe.tag _ ys2 (by simp [insertedTags]) (ih ys2 hrest)
  | tag t rest ht _ ih =>
    obtain ⟨tail, htail, hsubtail⟩ := inlineSubst_tag t rest ys (insertedTags_clean t ht).1 hsub
    rw [htail]
    exact TagSafe.tag t tail ht (ih tail hsubtail)

/-- Helper: the newline step leaves a text without newlines as it is. -/
theorem replaceNewlines_clean (t : List Char) (hclean : ∀ c ∈ t, c ≠ '\n') :
    replaceNewlines t = t := by
  induction t with
  | nil => rfl
  | cons c rest ih =>
    have hc : c ≠ '\n' := hclean c (List.mem_cons_self c rest)
    have hrest : replaceNewlines rest = rest :=
      ih (fun x hx => hclean x (List.mem_cons_of_mem c hx))
    simp only [replaceNewlines, List.flatMap_cons, hc, if_false, List.singleton_append]
    exact congrArg (List.cons c) hrest

/-- Helper: the newline step keeps a text tag-safe. -/
theorem tagSafe_newlines (xs : List Char) (hsafe : TagSafe xs) :
    TagSafe (replaceNewlines xs) := by
  induction hsafe with
  | nil => exact TagSafe.nil
  | char c rest hlt hgt _ ih =>
    by_cases hc : c = '\n'
    · have hexp : replaceNewlines (c :: rest) = "<br>".data ++ replaceNewlines rest := by
        simp [replaceNewlines, hc]
      rw [hexp]
      exact TagSafe.tag _ _ (by simp [insertedTags]) ih
    · have hexp : replaceNewlines (c :: rest) = c :: replaceNewlines rest := by
        simp [replaceNewlines, hc]
      rw [hexp]
      exact TagSafe.char c _ hlt hgt ih
  | tag t rest ht _ ih =>
    have hexp : replaceNewlines (t ++ rest) = t ++ replaceNewlines rest := by
      have hsplit : replaceNewlines (t ++ rest) = replaceNewlines t ++ replaceNewlines rest := by
        simp [replaceNewlines, List.flatMap_append]
      rw [hsplit, replaceNewlines_clean t (insertedTags_clean t ht).2]
    rw [hexp]
    exact TagSafe.tag t _ ht ih

/-- Helper: the three escaping passes act on the first character as
`escapeChar` does. -/
theorem escapeHtml_cons (c : Char) (cs : List Char) :
    escapeHtml (c :: cs) = escapeChar c ++ escapeHtml cs := by
  by_cases h1 : c = '&'
  · subst h1
    simp [escapeHtml, escapePass, escapeChar, List.flatMap_append]
  · by_cases h2 : c = '<'
    · subst h2
      simp [escapeHtml, escapePass, escapeChar, List.flatMap_append]
    · by_cases h3 : c = '>'
      · subst h3
        simp [escapeHtml, escapePass, escapeChar, List.flatMap_append]
      · simp [escapeHtml, escapePass, escapeChar, List.flatMap_append, h1, h2, h3]

/-- Helper: the three escaping passes replace every character by its
entity. -/
theorem escapeHtml_eq (cs : List Char) : escapeHtml cs = cs.flatMap escapeChar := by
  induction cs with
  | nil => rfl
  | cons c rest ih => rw [escapeHtml_cons, ih, List.flatMap_cons]

/-- Helper: escaping introduces no backtick and no newline. -/
theorem escapeChar_clean (c x : Char) (hx : x ∈ escapeChar c) :
    (c ≠ backtick → x ≠ backtick) ∧ (c ≠ '\n' → x ≠ '\n') := by
  unfold escapeChar at hx
  split at hx
  · simp at hx
    rcases hx with rfl | rfl | rfl | rfl | rfl <;> exact ⟨fun _ => by decide, fun _ => by decide⟩
  · split at hx
    · simp at hx
      rcases hx with rfl | rfl | rfl | rfl <;> exact ⟨fun _ => by decide, fun _ => by decide⟩
    · split at hx
      · simp at hx
        rcases hx with rfl | rfl | rfl | rfl <;> exact ⟨fun _ => by decide, fun _ => by decide⟩
      · simp only [List.mem_singleton] at hx
        subst hx
        exact ⟨id, id⟩

/-- Helper: the code-block pattern matches only at a backtick. -/
theorem matchBlock_clean (c : Char) (cs : List Char) (hc : c ≠ backtick) :
    matchBlock (c :: cs) = none := by
  have hstart : startsWith [backtick, backtick, backtick] (c :: cs) = false := by
    simp [startsWith, Ne.symm hc]
  simp [matchBlock, hstart]

/-- Helper: the inline pattern matches only at a backtick. -/
theorem matchInline_clean (c : Char) (cs : List Char) (hc : c ≠ backtick) :
    matchInline (c :: cs) = none := by
  simp [matchInline, hc]

/-- Helper: a global replacement whose pattern matches only at a backtick
leaves a text without backticks as it is. -/
theorem replaceAll_clean (matchAt : List Char → Option (List Char × Nat)) (cs : List Char)
    (hnone : ∀ c rest, c ≠ backtick → matchAt (c :: rest) = none)
    (hclean : ∀ c ∈ cs, c ≠ backtick) : replaceAll matchAt 0 cs = cs := by
  induction cs with
  | nil => rfl
  | cons c rest ih =>
    have hc : c ≠ backtick := hclean c (List.mem_cons_self c rest)
    simp only [replaceAll, hnone c rest hc]
    exact congrArg (List.cons c) (ih (fun x hx => hclean x (List.mem_cons_of_mem c hx)))

/-- Helper: the output of `formatMessage` is tag-safe. -/
theorem formatMessage_tagSafe (content : String) : TagSafe (formatMessage content).data := by
  unfold formatMessage
  exact tagSafe_newlines _ (tagSafe_subst _ _
    (replaceBlocks_tagSafe _ (escapeHtml_plain content.data)) (replaceInline_subst _))

/-- C17: in the output of `formatMessage` every `<` is the first character
and every `>` the last character of one of the tags the function inserts
(`<pre>`, `</pre>`, `<code>`, `</code>`, `<br>`): the output is made of
characters other than `<` and `>` and of whole inserted tags; and for an
input without backticks and newlines the output is the input with `&`, `<`
and `>` replaced by `&amp;`, `&lt;` and `&gt;`. -/
theorem formatMessage_escapes (content : String) :
    TagSafe (formatMessage content).data ∧
    (backtick ∉ content.data → '\n' ∉ content.data →
      formatMessage content = String.mk (content.data.flatMap escapeChar)) := by
  refine ⟨formatMessage_tagSafe content, ?_⟩
  intro hbt hnl
  have hesc : ∀ x ∈ content.data.flatMap escapeChar, x ≠ backtick ∧ x ≠ '\n' := by
    intro x hx
    obtain ⟨c, hc, hxc⟩ := List.mem_flatMap.mp hx
    have hclean := escapeChar_clean c x hxc
    exact ⟨hclean.1 (fun h => hbt (h ▸ hc)), hclean.2 (fun h => hnl (h ▸ hc))⟩
  unfold formatMessage
  rw [escapeHtml_eq,
    replaceAll_clean matchBlock _ matchBlock_clean (fun x hx => (hesc x hx).1),
    replaceAll_clean matchInline _ matchInline_clean (fun x hx => (hesc x hx).1),
    replaceNewlines_clean _ (fun x hx => (hesc x hx).2)]

/-- Witness of C17: `a <b> & c` is rendered as `a &lt;b&gt; &amp; c`. -/
theorem formatMessage_escapes_witness :
    TagSafe (formatMessage "a <b> & c").data ∧
    formatMessage "a <b> & c" = "a &lt;b&gt; &amp; c" :=
  ⟨(formatMessage_escapes "a <b> & c").1,
   (formatMessage_escapes "a <b> & c").2 (by decide) (by decide)⟩

/-! ## The two parts of `sendMessage` -/

/-- Helper: `sendMessage` is its first part followed at once by its second
part. -/
theorem sendMessage_eq_phases (env : Env) (app : App) :
    sendMessage env app =
      match sendMessageStart env app with
      | (started, some pending) =>
        (sendMessageFinish env pending started, pending.outcome.calls)
      | (started, none) => (started, []) := by
  by_cases hinput : jsTrim app.inputValue = ""
  · simp [sendMessage, sendMessageStart, hinput]
  · by_cases hkey : app.config.apiKey = ""
    · simp [sendMessage, sendMessageStart, hinput, hkey]
    · simp [sendMessage, sendMessageStart, sendMessageFinish, hinput, hkey]

/-- Helper: with a non-blank input and an API key the first part pushes the
user entry and leaves the call pending with the outcome of `callAPI` on the
transcript that holds the new entry. -/
theorem sendMessageStart_dispatched (env : Env) (app : App)
    (hinput : jsTrim app.inputValue ≠ "") (hkey : app.config.apiKey ≠ "") :
    ∃ started, sendMessageStart env app =
        (started, some ⟨"loading-" ++ Nat.repr env.tLoading,
          callAPI env app.config (app.chatHistory ++ [⟨"user", jsTrim app.inputValue⟩])⟩) ∧
      started.chatHistory = app.chatHistory ++ [⟨"user", jsTrim app.inputValue⟩] ∧
      started.config = app.config := by
  refine ⟨(sendMessageStart env app).1, ?_, ?_, ?_⟩
  · simp only [sendMessageStart, hinput, hkey, if_false, addLoadingMessage, addMessage]
  · simp only [sendMessageStart, hinput, hkey, if_false, addLoadingMessage, addMessage]
  · simp only [sendMessageStart, hinput, hkey, if_false, addLoadingMessage, addMessage]

/-- Helper: the first part only appends to the transcript. -/
theorem sendMessageStart_history (env : Env) (app : App) :
    (sendMessageStart env app).1.chatHistory = app.chatHistory ∨
    (sendMessageStart env app).1.chatHistory =
      app.chatHistory ++ [⟨"user", jsTrim app.inputValue⟩] := by
  by_cases hinput : jsTrim app.inputValue = ""
  · left
    simp [sendMessageStart, hinput]
  · by_cases hkey : app.config.apiKey = ""
    · left
      simp [sendMessageStart, hinput, hkey, toggleSettings, showNotification]
    · right
      obtain ⟨started, hstart, hhist, -⟩ := sendMessageStart_dispatched env app hinput hkey
      rw [hstart]
      exact hhist

/-- Helper: the second part, on whatever state it runs, appends the
assistant entry to the transcript of that state when the awaited value is a
string and leaves the transcript as it is otherwise; the configuration is
not touched. -/
theorem sendMessageFinish_history (env : Env) (pending : Pending) (later : App) :
    (sendMessageFinish env pending later).config = later.config ∧
    (sendMessageFinish env pending later).chatHistory =
      match pending.outcome.result with
      | .ok (.str response) => later.chatHistory ++ [⟨"assistant", response⟩]
      | _ => later.chatHistory := by
  cases hres : pending.outcome.result with
  | error e => simp [sendMessageFinish, settle, hres, addMessage, removeMessage]
  | ok v => cases v <;> simp [sendMessageFinish, settle, hres, addMessage, removeMessage]

/-- C5 as stated fails: on groq with the body `{ choices: [] }`, when a
second text is submitted while the first request is pending, the transcript
after the first call has completed holds the second user entry too, so it is
not the prior transcript followed by the first user entry only. -/
theorem second_enter_breaks_missing_content :
    (secondEnterTrace emptyChoicesEnv laterEmptyChoicesEnv "again" sampleApp).map
        App.chatHistory =
      some [⟨"user", "ping"⟩, ⟨"assistant", "pong"⟩, ⟨"user", "hi"⟩, ⟨"user", "again"⟩] ∧
    (secondEnterTrace emptyChoicesEnv laterEmptyChoicesEnv "again" sampleApp).map
        App.chatHistory ≠
      some (sampleApp.chatHistory ++ [⟨"user", jsTrim sampleApp.inputValue⟩]) := by
  decide

/-- C5, amended: on a chat-completions provider, when the response has a
2xx status and a body that is not JSON or on which the read of
`choices[0].message.content` throws or gives a falsy value (the five listed
shapes among them), the awaited dispatch is an error, not a reply, and the
completion of the call appends nothing to the transcript of the state it
runs on; the user entry was pushed before the request, so when nothing else
ran while the request was pending the transcript is the prior transcript
followed by the user entry only. -/
theorem missing_content_appends_nothing (env : Env) (app : App) (status : Nat)
    (json : Except String JSVal)
    (hp : app.config.apiProvider = "groq" ∨ app.config.apiProvider = "openrouter")
    (hinput : jsTrim app.inputValue ≠ "") (hkey : app.config.apiKey ≠ "")
    (hnet : ∀ request ∈ (callAPI env app.config
        (app.chatHistory ++ [⟨"user", jsTrim app.inputValue⟩])).calls,
      env.net request = .response status json)
    (hok : statusOk status = true)
    (hlacks : (∃ msg, json = .error msg) ∨
      ∃ body, json = .ok body ∧
        ((∃ e, extractContent body = .error e) ∨
         (∃ c, extractContent body = .ok c ∧ c.truthy = false))) :
    ∃ started pending,
      sendMessageStart env app = (started, some pending) ∧
      started.chatHistory = app.chatHistory ++ [⟨"user", jsTrim app.inputValue⟩] ∧
      (∃ e, pending.outcome.result = .error e) ∧
      (∀ later : App, (sendMessageFinish env pending later).chatHistory = later.chatHistory) ∧
      (sendMessageFinish env pending started).chatHistory =
        app.chatHistory ++ [⟨"user", jsTrim app.inputValue⟩] ∧
      (sendMessage env app).1.chatHistory =
        app.chatHistory ++ [⟨"user", jsTrim app.inputValue⟩] := by
  obtain ⟨started, hstart, hhist, -⟩ := sendMessageStart_dispatched env app hinput hkey
  obtain ⟨endpoint, hcall⟩ := callAPI_chat_calls env app.config
    (app.chatHistory ++ [⟨"user", jsTrim app.inputValue⟩]) hp
  rw [hcall] at hnet
  have hresp := hnet _ (List.mem_singleton.mpr rfl)
  obtain ⟨e, he⟩ := chatReply_lacks status json hok hlacks
  have hres : (callAPI env app.config
      (app.chatHistory ++ [⟨"user", jsTrim app.inputValue⟩])).result = .error e := by
    rw [hcall]
    simp only [hresp, he]
  have hfinish : ∀ later : App,
      (sendMessageFinish env ⟨"loading-" ++ Nat.repr env.tLoading,
        callAPI env app.config (app.chatHistory ++ [⟨"user", jsTrim app.inputValue⟩])⟩
        later).chatHistory = later.chatHistory := by
    intro later
    rw [(sendMessageFinish_history env _ later).2]
    simp only [hres]
  refine ⟨started, _, hstart, hhist, ⟨e, hres⟩, hfinish, ?_, ?_⟩
  · rw [hfinish started, hhist]
  · rw [sendMessage_eq_phases, hstart]
    simp only
    rw [hfinish started, hhist]

/-- Witness of C5, amended: the body `{ choices: [] }` on groq, with nothing
else running during the call, leaves the transcript with the user entry `hi`
as its last entry. -/
theorem missing_content_appends_nothing_witness :
    (sendMessage emptyChoicesEnv sampleApp).1.chatHistory =
      [⟨"user", "ping"⟩, ⟨"assistant", "pong"⟩, ⟨"user", "hi"⟩] :=
  match missing_content_appends_nothing emptyChoicesEnv sampleApp 200
      (.ok (.obj [("choices", .arr [])])) (Or.inl rfl) (by decide) (by decide)
      (fun _ _ => rfl) (by decide)
      (Or.inr ⟨_, rfl, Or.inr ⟨.undefined, by
        simp [extractContent, JSVal.get, JSVal.field, JSVal.at0, JSVal.first, JSVal.optGet,
          List.lookup], rfl⟩⟩) with
  | ⟨_, _, _, _, _, _, _, hrun⟩ => hrun

/-- C10 as stated fails: when the chat is cleared while the request is
pending, the transcript after the call is the assistant entry alone, of
which the transcript before the call is not an initial segment; and when a
second text is submitted while the request is pending, the transcript after
the first call is not the old one followed by its user and assistant
entries. -/
theorem overlapping_calls_break_append :
    (clearDuringCallTrace sampleEnv sampleApp).map App.chatHistory =
      some [⟨"assistant", "ok"⟩] ∧
    (¬ ∃ added, [(⟨"assistant", "ok"⟩ : Message)] = sampleApp.chatHistory ++ added) ∧
    (secondEnterTrace sampleEnv sampleEnv "again" sampleApp).map App.chatHistory =
      some [⟨"user", "ping"⟩, ⟨"assistant", "pong"⟩, ⟨"user", "hi"⟩, ⟨"user", "again"⟩,
            ⟨"assistant", "ok"⟩] ∧
    (secondEnterTrace sampleEnv sampleEnv "again" sampleApp).map App.chatHistory ≠
      some (sampleApp.chatHistory ++ [⟨"user", "hi"⟩, ⟨"assistant", "ok"⟩]) := by
  refine ⟨by decide, ?_, by decide, by decide⟩
  rintro ⟨added, hadded⟩
  simp [sampleApp] at hadded

/-- C10, amended: each part of `sendMessage` only appends, at the end of the
transcript of the state it runs on: the part before the `await` leaves the
transcript as it is or adds the user entry (the trimmed input), the part
after it leaves the transcript as it is or adds the assistant entry (the
awaited string); and when the dispatch returns the string `reply` and nothing
else runs while the request is pending, the new transcript is the old one
followed by the user entry and the assistant entry, which is what the next
dispatch places after the system message. -/
theorem sendMessage_phases_append (env : Env) (app : App) :
    ((sendMessageStart env app).1.chatHistory = app.chatHistory ∨
      (sendMessageStart env app).1.chatHistory =
        app.chatHistory ++ [⟨"user", jsTrim app.inputValue⟩]) ∧
    (∀ (pending : Pending) (later : App),
      (sendMessageFinish env pending later).chatHistory = later.chatHistory ∨
      ∃ reply, pending.outcome.result = .ok (.str reply) ∧
        (sendMessageFinish env pending later).chatHistory =
          later.chatHistory ++ [⟨"assistant", reply⟩]) ∧
    (∀ reply, jsTrim app.inputValue ≠ "" → app.config.apiKey ≠ "" →
      (callAPI env app.config
        (app.chatHistory ++ [⟨"user", jsTrim app.inputValue⟩])).result = .ok (.str reply) →
      ∃ started pending,
        sendMessageStart env app = (started, some pending) ∧
        started.chatHistory = app.chatHistory ++ [⟨"user", jsTrim app.inputValue⟩] ∧
        (∀ later : App, (sendMessageFinish env pending later).chatHistory =
          later.chatHistory ++ [⟨"assistant", reply⟩]) ∧
        (sendMessageFinish env pending started).chatHistory =
          app.chatHistory ++ [⟨"user", jsTrim app.inputValue⟩, ⟨"assistant", reply⟩] ∧
        (sendMessage env app).1.chatHistory =
          app.chatHistory ++ [⟨"user", jsTrim app.inputValue⟩, ⟨"assistant", reply⟩] ∧
        buildMessages (sendMessage env app).1.config (sendMessage env app).1.chatHistory =
          ⟨"system", app.config.systemPrompt⟩ ::
            (app.chatHistory ++ [⟨"user", jsTrim app.inputValue⟩, ⟨"assistant", reply⟩])) := by
  refine ⟨sendMessageStart_history env app, ?_, ?_⟩
  · intro pending later
    rw [(sendMessageFinish_history env pending later).2]
    split
    · rename_i response hres
      exact Or.inr ⟨response, hres, rfl⟩
    · exact Or.inl rfl
  · intro reply hinput hkey hres
    obtain ⟨started, hstart, hhist, hconfig⟩ := sendMessageStart_dispatched env app hinput hkey
    have hfinish : ∀ later : App,
        (sendMessageFinish env ⟨"loading-" ++ Nat.repr env.tLoading,
          callAPI env app.config (app.chatHistory ++ [⟨"user", jsTrim app.inputValue⟩])⟩
          later).chatHistory = later.chatHistory ++ [⟨"assistant", reply⟩] := by
      intro later
      rw [(sendMessageFinish_history env _ later).2]
      simp only [hres]
    have hrun : (sendMessage env app).1 =
        sendMessageFinish env ⟨"loading-" ++ Nat.repr env.tLoading,
          callAPI env app.config (app.chatHistory ++ [⟨"user", jsTrim app.inputValue⟩])⟩
          started := by
      rw [sendMessage_eq_phases, hstart]
    have hboth : (sendMessageFinish env ⟨"loading-" ++ Nat.repr env.tLoading,
          callAPI env app.config (app.chatHistory ++ [⟨"user", jsTrim app.inputValue⟩])⟩
          started).chatHistory =
        app.chatHistory ++ [⟨"user", jsTrim app.inputValue⟩, ⟨"assistant", reply⟩] := by
      rw [hfinish started, hhist]
      simp
    refine ⟨started, _, hstart, hhist, hfinish, hboth, ?_, ?_⟩
    · rw [hrun, hboth]
    · rw [hrun, hboth, (sendMessageFinish_history env _ started).1, hconfig]
      rfl

/-- Witness of C10, amended: with the earlier exchange `ping`/`pong` in the
transcript, the input `"  hi \n"`, the reply `"ok"` and nothing else running
during the call, the transcript becomes `ping, pong, hi, ok`. -/
theorem sendMessage_phases_append_witness :
    (sendMessage sampleEnv sampleApp).1.chatHistory =
        [⟨"user", "ping"⟩, ⟨"assistant", "pong"⟩, ⟨"user", "hi"⟩, ⟨"assistant", "ok"⟩] ∧
    buildMessages (sendMessage sampleEnv sampleApp).1.config
        (sendMessage sampleEnv sampleApp).1.chatHistory =
      [⟨"system", "be terse"⟩, ⟨"user", "ping"⟩, ⟨"assistant", "pong"⟩, ⟨"user", "hi"⟩,
       ⟨"assistant", "ok"⟩] :=
  match (sendMessage_phases_append sampleEnv sampleApp).2.2 "ok" (by decide) (by decide) (by
      simp [callAPI, lookupEndpoint, apiEndpoints, List.lookup, sampleApp, sampleConfig,
        chatReply, sampleEnv, statusOk, extractContent, JSVal.get, JSVal.field, JSVal.at0,
        JSVal.first, JSVal.optGet, JSVal.truthy]) with
  | ⟨_, _, _, _, _, _, hrun, hnext⟩ => ⟨hrun, hnext⟩

end AIChatApp
